import Mathlib

/-!
Formal model of the bevy_mujoco bridge (src/wrappers.rs, src/adapters.rs,
src/lib.rs): the flat MuJoCo body/geom tables, the kinematic tree builder,
the renderable-geom selection, mesh generation, the MuJoCo-to-Bevy frame
conversion, and the per-body scene-spawn step.

Modelling conventions:
* Machine floats (f32/f64) are modelled as exact rationals.  All properties
  verified here are structural (component shuffles, sign flips, exact zero
  tests, counting), so rounding plays no role in them.
* Rust code that can panic (todo! arms, Option::unwrap, slice indexing out
  of bounds) is modelled with an explicit panic value: an Option result
  where none stands for the panic, or the MeshResult.panicked constructor.
* Rust's unbounded recursion in collect_children is modelled with an
  explicit fuel argument.  Whenever the Rust recursion terminates, every
  root-to-leaf path visits pairwise distinct list entries, so its depth is
  at most the list length; body_tree passes exactly that fuel, hence the
  model agrees with the source on all terminating inputs.
-/

/-- A [f64; 3] array from the source, as exact rationals. -/
structure Arr3 where
  a0 : ℚ
  a1 : ℚ
  a2 : ℚ
deriving DecidableEq, Inhabited

/-- A [f64; 4] array from the source (MuJoCo quaternion storage or RGBA). -/
structure Arr4 where
  a0 : ℚ
  a1 : ℚ
  a2 : ℚ
  a3 : ℚ
deriving DecidableEq, Inhabited

/-- Bevy's Vec3, as exact rationals. -/
structure Vec3Q where
  x : ℚ
  y : ℚ
  z : ℚ
deriving DecidableEq, Inhabited

instance : Sub Vec3Q := ⟨fun a b => ⟨a.x - b.x, a.y - b.y, a.z - b.z⟩⟩

instance : Add Vec3Q := ⟨fun a b => ⟨a.x + b.x, a.y + b.y, a.z + b.z⟩⟩

/-- Bevy's Quat in from_xyzw component order, as exact rationals. -/
structure Quat4 where
  x : ℚ
  y : ℚ
  z : ℚ
  w : ℚ
deriving DecidableEq, Inhabited

/-- Hamilton product, the multiplication used by bevy's Quat. -/
def Quat4.mul (a b : Quat4) : Quat4 :=
  { x := a.w * b.x + a.x * b.w + a.y * b.z - a.z * b.y
    y := a.w * b.y - a.x * b.z + a.y * b.w + a.z * b.x
    z := a.w * b.z + a.x * b.y - a.y * b.x + a.z * b.w
    w := a.w * b.w - a.x * b.x - a.y * b.y - a.z * b.z }

/-- The GeomType enum shared by all three source revisions. -/
inductive GeomType where
  | PLANE
  | HFIELD
  | SPHERE
  | CAPSULE
  | ELLIPSOID
  | CYLINDER
  | BOX
  | MESH
  | NONE
deriving DecidableEq, Inhabited

/-- The renderable mesh value produced by the Geom::mesh / geom_mesh
functions.  Each constructor records the bevy shape constructor called and
the scalar arguments passed to it; objMesh records the file path handed to
the external obj loader, and triMesh the raw triangle data handed to
bevy's mesh builder. -/
inductive BevyMesh where
  | plane (size : ℚ)
  | box (xExtent yExtent zExtent : ℚ)
  | icosphere (radius : ℚ)
  | capsule (radius depth : ℚ)
  | cylinder (radius height : ℚ)
  | objMesh (path : String)
  | triMesh (vertices normals : List Arr3) (indices : List Nat)
deriving DecidableEq

/-- Outcome of mesh generation: either a mesh, or a process panic
(a todo! arm or an Option::unwrap on none in the source). -/
inductive MeshResult where
  | ok (m : BevyMesh)
  | panicked
deriving DecidableEq

namespace Wrappers

/-- MuJoCoMesh from src/wrappers.rs: triangle data extracted from the
simulation plus the mesh name used to locate the obj asset. -/
structure MuJoCoMesh where
  vertices : List Arr3
  normals : List Arr3
  indices : List Nat
  name : String
deriving DecidableEq

/-- Geom from src/wrappers.rs.  pos/size/quat hold the values after the
loader's y/z swap (replace_values_vec3 on indices 1,2) and quaternion
component swap (replace_values_vec4 on indices 0,3), exactly as stored by
MuJoCo::geoms(). -/
structure Geom where
  id : Int
  name : String
  geom_type : GeomType
  body_id : Int
  pos : Arr3
  quat : Arr4
  size : Arr3
  color : Arr4
  mesh : Option MuJoCoMesh
  geom_group : Int
  geom_contype : Int
deriving DecidableEq, Inhabited

/-- Geom::mesh from src/wrappers.rs.  The ELLIPSOID, HFIELD and NONE arms
are todo!() in the source, i.e. process panics; the MESH arm panics when
the geom carries no mesh data (Option::unwrap), and otherwise hands the
asset path to the external obj loader (file I/O itself is outside this
model, the returned value records the path passed to it). -/
def Geom.mesh_for (self : Geom) (assets_path : String) : MeshResult :=
  match self.geom_type with
  | .PLANE =>
      .ok (.plane (if 0 < self.size.a0 then self.size.a0 else 1000000))
  | .BOX => .ok (.box self.size.a0 self.size.a1 self.size.a2)
  | .SPHERE => .ok (.icosphere self.size.a0)
  | .CAPSULE => .ok (.capsule self.size.a0 (self.size.a2 * 2))
  | .ELLIPSOID => .panicked
  | .CYLINDER => .ok (.cylinder self.size.a0 (self.size.a2 * 2))
  | .MESH =>
      match self.mesh with
      | some m => .ok (.objMesh (assets_path ++ "/" ++ m.name ++ ".obj"))
      | none => .panicked
  | .NONE => .panicked
  | .HFIELD => .panicked

/-- Geom::rotation from src/wrappers.rs:
Quat::from_xyzw(quat[1], quat[0], quat[2], -quat[3]) on the stored array. -/
def Geom.rotation (self : Geom) : Quat4 :=
  ⟨self.quat.a1, self.quat.a0, self.quat.a2, -self.quat.a3⟩

/-- Geom::correction from src/wrappers.rs. -/
def Geom.correction (self : Geom) : Vec3Q :=
  match self.geom_type with
  | .BOX => ⟨0, self.size.a1 / 2, 0⟩
  | .CAPSULE => ⟨0, self.size.a1 * 2, 0⟩
  | .CYLINDER => ⟨0, self.size.a2 * 2, 0⟩
  | _ => ⟨0, 0, 0⟩

/-- Geom::translation from src/wrappers.rs: Vec3::new(pos[0], pos[2], pos[1])
minus the anchor correction. -/
def Geom.translation (self : Geom) : Vec3Q :=
  (⟨self.pos.a0, self.pos.a2, self.pos.a1⟩ : Vec3Q) - self.correction

/-- Body from src/wrappers.rs.  pos/quat hold the values after the loader's
swaps, exactly as stored by MuJoCo::bodies(). -/
structure Body where
  id : Int
  name : String
  parent_id : Int
  geom_n : Int
  geom_addr : Int
  pos : Arr3
  quat : Arr4
deriving DecidableEq, Inhabited

/-- Body::rotation from src/wrappers.rs:
Quat::from_xyzw(quat[1], quat[0], quat[2], -quat[3]) on the stored array. -/
def Body.rotation (self : Body) : Quat4 :=
  ⟨self.quat.a1, self.quat.a0, self.quat.a2, -self.quat.a3⟩

/-- Body::translation from src/wrappers.rs. -/
def Body.translation (self : Body) : Vec3Q :=
  ⟨self.pos.a0, self.pos.a2, self.pos.a1⟩

/-- Body::geoms from src/wrappers.rs: reads geoms[geom_addr + i] for
i in 0..geom_n.  A negative geom_n yields an empty Rust range, hence an
empty vector; otherwise any index outside the slice panics (none). -/
def Body.geomsOf (self : Body) (geoms : List Geom) : Option (List Geom) :=
  if self.geom_n ≤ 0 then some []
  else if 0 ≤ self.geom_addr ∧ self.geom_addr + self.geom_n ≤ (geoms.length : Int) then
    some ((geoms.drop self.geom_addr.toNat).take self.geom_n.toNat)
  else none

/-- The comparator closure inside Body::render_geom (src/wrappers.rs
lines 200-213). -/
def geomCmp (g1 g2 : Geom) : Ordering :=
  if g1.geom_type == GeomType.MESH && g2.geom_type != GeomType.MESH then .lt
  else if g1.geom_type != GeomType.MESH && g2.geom_type == GeomType.MESH then .gt
  else if g1.geom_group < g2.geom_group then .gt
  else .lt

/-- Insert into a list sorted by cmp, keeping an element already in place
while it compares strictly less than the inserted one. -/
def insertSorted (cmp : Geom → Geom → Ordering) (x : Geom) : List Geom → List Geom
  | [] => [x]
  | y :: ys =>
      if cmp y x == Ordering.lt then y :: insertSorted cmp x ys else x :: y :: ys

/-- Model of itertools sorted_by (a stable comparison sort) as a stable
insertion sort.  On every input on which the comparator is a strict weak
order over the occurring elements — in particular whenever geoms of equal
mesh-kind class have pairwise distinct groups, as hypothesised where this
matters — all stable comparison sorts agree, so this models the source's
sort exactly there. -/
def sortedBy (cmp : Geom → Geom → Ordering) : List Geom → List Geom
  | [] => []
  | x :: xs => insertSorted cmp x (sortedBy cmp xs)

/-- Body::render_geom from src/wrappers.rs.  The outer Option models the
possible panic inside self.geoms (out-of-range slice); the inner Option is
the source's return value. -/
def Body.render_geom (self : Body) (geoms : List Geom) : Option (Option Geom) :=
  let geom_query := geoms.filter (fun g => g.body_id == self.id)
  if geom_query.length == 1 then
    some geom_query.getLast?
  else
    match self.geomsOf geoms with
    | none => none
    | some body_geoms =>
        some ((sortedBy geomCmp
          (body_geoms.filter (fun g => decide (g.geom_group < 3)))).getLast?)

mutual
/-- trees::Tree<Body>: a body node with its ordered children. -/
inductive BTree where
  | node : Body → Forest → BTree
deriving DecidableEq
/-- The ordered child list of a tree node (push_back order). -/
inductive Forest where
  | nil : Forest
  | cons : BTree → Forest → Forest
deriving DecidableEq
end

/-- Convert a Lean list of subtrees into a Forest, preserving order. -/
def ofList (l : List BTree) : Forest := l.foldr Forest.cons Forest.nil

/-- The child predicate inside collect_children (src/wrappers.rs
lines 421-428). -/
def childFilter (parent_id : Int) (child : Body) : Bool :=
  child.parent_id == parent_id && child.id != child.parent_id &&
    child.parent_id != 0

/-- collect_children from src/wrappers.rs: gather the children of the node
with the given id, in body-table order, recursing into each child.  The
fuel argument models Rust's unbounded recursion (see file header). -/
def collect_children : Nat → Int → List Body → Forest
  | 0, _, _ => .nil
  | fuel+1, parent_id, bodies =>
      ofList ((bodies.filter (childFilter parent_id)).map
        (fun c => BTree.node c (collect_children fuel c.id bodies)))

/-- MuJoCo::body_tree from src/wrappers.rs: one tree per body whose
parent_id is the world sentinel 0, children collected recursively. -/
def body_tree (bodies : List Body) : List BTree :=
  (bodies.filter (fun b => b.parent_id == 0)).map
    (fun b => BTree.node b (collect_children bodies.length b.id bodies))

mutual
/-- Number of nodes in a tree. -/
def treeSize : BTree → Nat
  | .node _ cs => 1 + forestSize cs
/-- Number of nodes in a forest. -/
def forestSize : Forest → Nat
  | .nil => 0
  | .cons t ts => treeSize t + forestSize ts
end

/-- Total node count of the forest returned by body_tree. -/
def totalNodes (trees : List BTree) : Nat := (trees.map treeSize).sum

/-- The string used for one indentation level in the test serializer. -/
def dashes : String := "--"

/-- str::repeat. -/
def repeatStr (s : String) : Nat → String
  | 0 => ""
  | k+1 => s ++ repeatStr s k

mutual
/-- print_body_tree_level from the bodies_tree test (src/wrappers.rs
lines 853-865): emit the indented node name, then recursively the
children popped from the back (hence in reverse push order). -/
def print_body_tree_level : BTree → Nat → String
  | .node b cs, level =>
      repeatStr dashes level ++ b.name ++ "\n" ++ printPopBack cs (level + 1)
/-- The pop_back loop of the serializer: last child first. -/
def printPopBack : Forest → Nat → String
  | .nil, _ => ""
  | .cons t ts, level => printPopBack ts level ++ print_body_tree_level t level
end

end Wrappers

namespace Adapters

/-- mujoco_rust::Mesh as consumed by src/adapters.rs. -/
structure Mesh where
  vertices : List Arr3
  normals : List Arr3
  indices : List Nat
deriving DecidableEq

/-- The fields of mujoco_rust::Geom read by src/adapters.rs.  quat holds
the raw MuJoCo-order components (w, x, y, z); size is the raw MuJoCo size
vector accessed as .x/.y/.z. -/
structure Geom where
  geom_type : GeomType
  body_id : Int
  pos : Arr3
  quat : Arr4
  size : Vec3Q
  color : Arr4
  mesh : Option Mesh
deriving DecidableEq, Inhabited

/-- mesh_mujoco_2_bevy from src/adapters.rs. -/
def mesh_mujoco_2_bevy (m : Mesh) : BevyMesh :=
  .triMesh m.vertices m.normals m.indices

/-- geom_mesh from src/adapters.rs: swaps size components 1 and 2, then
builds the primitive; the catch-all arm is todo!() (panic). -/
def geom_mesh (geom : Geom) : MeshResult :=
  let size : Arr3 := ⟨geom.size.x, geom.size.z, geom.size.y⟩
  match geom.geom_type with
  | .PLANE =>
      .ok (.plane (if 0 < size.a0 then size.a0 else 1000000))
  | .BOX => .ok (.box size.a0 size.a1 size.a2)
  | .SPHERE => .ok (.icosphere size.a0)
  | .CAPSULE => .ok (.capsule size.a0 (size.a2 * 2))
  | .ELLIPSOID => .panicked
  | .CYLINDER => .ok (.cylinder size.a0 (size.a2 * 2))
  | .MESH =>
      match geom.mesh with
      | some m => .ok (mesh_mujoco_2_bevy m)
      | none => .panicked
  | .NONE => .panicked
  | .HFIELD => .panicked

/-- geom_rotation from src/adapters.rs: MESH geoms get a plain component
reorder, every other kind gets the reorder with the y/z swap on the vector
part and the sign flip on the scalar part. -/
def geom_rotation (geom : Geom) : Quat4 :=
  match geom.geom_type with
  | .MESH => ⟨geom.quat.a1, geom.quat.a2, geom.quat.a3, geom.quat.a0⟩
  | _ => ⟨geom.quat.a1, geom.quat.a3, geom.quat.a2, -geom.quat.a0⟩

/-- geom_correction from src/adapters.rs: swaps size components 1 and 2,
then returns the per-kind anchor offset. -/
def geom_correction (geom : Geom) : Vec3Q :=
  let size : Arr3 := ⟨geom.size.x, geom.size.z, geom.size.y⟩
  match geom.geom_type with
  | .BOX => ⟨0, size.a2 * 2, 0⟩
  | .CAPSULE => ⟨0, size.a1 * 2, 0⟩
  | .CYLINDER => ⟨0, size.a2 * 2, 0⟩
  | _ => ⟨0, 0, 0⟩

/-- geom_translation from src/adapters.rs. -/
def geom_translation (geom : Geom) : Vec3Q :=
  (⟨geom.pos.a0, geom.pos.a1, geom.pos.a2⟩ : Vec3Q) - geom_correction geom

/-- The orientation conversion exactly as the spec words it (claim C5):
starting from MuJoCo (w,x,y,z) storage, reorder to (x,y,z,w) storage, swap
the y and z components of the vector part, and negate the scalar part. -/
def to_render_orientation_spec (q : Arr4) : Quat4 :=
  ⟨q.a1, q.a3, q.a2, -q.a0⟩

end Adapters

namespace Lib

/-- MuJoCoMesh from src/lib.rs (same shape as the wrappers revision). -/
structure MuJoCoMesh where
  vertices : List Arr3
  normals : List Arr3
  indices : List Nat
  name : String
deriving DecidableEq

/-- Geom from src/lib.rs (the earlier revision: f32 arrays, a parent_id
field, and no geom_group). -/
structure Geom where
  id : Int
  name : String
  geom_type : GeomType
  body_id : Int
  parent_id : Int
  pos : Arr3
  quat : Arr4
  size : Arr3
  color : Arr4
  mesh : Option MuJoCoMesh
deriving DecidableEq, Inhabited

/-- Geom::mesh from src/lib.rs.  In this revision the PLANE arm builds a
Box from the three size components; ELLIPSOID, HFIELD and NONE are todo!()
panics; the MESH arm panics on a missing mesh (Option::unwrap) and
otherwise hands the asset path to the external obj loader. -/
def Geom.mesh_for (self : Geom) (assets_path : String) : MeshResult :=
  match self.geom_type with
  | .PLANE => .ok (.box self.size.a0 self.size.a1 self.size.a2)
  | .BOX => .ok (.box self.size.a0 self.size.a1 self.size.a2)
  | .SPHERE => .ok (.icosphere self.size.a0)
  | .CAPSULE => .ok (.capsule self.size.a0 (self.size.a1 * 2))
  | .ELLIPSOID => .panicked
  | .CYLINDER => .ok (.cylinder self.size.a0 (self.size.a2 * 2))
  | .MESH =>
      match self.mesh with
      | some m => .ok (.objMesh (assets_path ++ "/" ++ m.name ++ ".obj"))
      | none => .panicked
  | .NONE => .panicked
  | .HFIELD => .panicked

/-- Geom::rotation from src/lib.rs: the stored components used as-is. -/
def Geom.rotation (self : Geom) : Quat4 :=
  ⟨self.quat.a0, self.quat.a1, self.quat.a2, self.quat.a3⟩

/-- Geom::translation from src/lib.rs. -/
def Geom.translation (self : Geom) : Vec3Q :=
  ⟨self.pos.a0, self.pos.a1, self.pos.a2⟩

/-- Body from src/lib.rs. -/
structure Body where
  id : Int
  name : String
  parent_id : Int
  root_id : Int
  geom_n : Int
  simple : Nat
  pos : Arr3
  quat : Arr4
  mass : ℚ
deriving DecidableEq, Inhabited

/-- Body::rotation from src/lib.rs. -/
def Body.rotation (self : Body) : Quat4 :=
  ⟨self.quat.a0, self.quat.a1, self.quat.a2, self.quat.a3⟩

/-- Body::translation from src/lib.rs. -/
def Body.translation (self : Body) : Vec3Q :=
  ⟨self.pos.a0, self.pos.a1, self.pos.a2⟩

/-- The PbrBundle data assembled by SpawnEntities::spawn_body
(src/lib.rs lines 810-862).  rotation_part is
body_transform.rotation * geom_transform.rotation, where the lib revision
of Body::transform squares the body rotation; the bundle's final rotation
additionally right-multiplies the fixed quarter-turn quaternions about X
and Y, whose components are irrational constants kept outside this
rational model and irrelevant to the claims below. -/
structure SpawnedPbr where
  mesh : BevyMesh
  base_color : Arr4
  translation : Vec3Q
  rotation_part : Quat4
deriving DecidableEq

/-- SpawnEntities::spawn_body from src/lib.rs: look up the first geom with
the body's id, unwrap it (none = panic when the body owns no geom), build
its mesh (which itself can panic), and assemble the bundle. -/
def spawn_body (body : Body) (geoms : List Geom) (assets_path : String) :
    Option SpawnedPbr :=
  match geoms.find? (fun g => g.body_id == body.id) with
  | none => none
  | some geom =>
      match geom.mesh_for assets_path with
      | .panicked => none
      | .ok m =>
          some
            { mesh := m
              base_color := geom.color
              translation := body.translation + geom.translation
              rotation_part :=
                (body.rotation.mul body.rotation).mul geom.rotation }

end Lib

namespace Wrappers

/-- The net component conversion realized by the wrappers revision:
reading the loader-swapped array as an (x,y,z,w) quadruple,
Body::rotation and Geom::rotation send (x,y,z,w) to (x,z,y,-w); see
rotation_eq_quat_conv below for the exact correspondence to the source. -/
def quat_conv (q : Quat4) : Quat4 := ⟨q.x, q.z, q.y, -q.w⟩

/-- Index-level parent function of a body table: the parent_id stored at
index j, clamped to Nat (internal to the C1 development; on well-formed
tables every parent_id is nonnegative). -/
def pfN (bodies : List Body) (j : Nat) : Nat :=
  ((bodies.getD j default).parent_id).toNat

/-- Fuel-bounded reachability along the parent function: reachb fuel j k
decides whether iterating pfN from j hits k within fuel steps (internal to
the C1 development). -/
def reachb (bodies : List Body) : Nat → Nat → Nat → Bool
  | 0, j, k => j == k
  | fuel+1, j, k => j == k || (decide (0 < j) && reachb bodies fuel (pfN bodies j) k)

/-- Unbounded reachability along the parent function (internal to the C1
development). -/
inductive Reach (bodies : List Body) : Nat → Nat → Prop
  | refl (j : Nat) : Reach bodies j j
  | step (j k : Nat) : 0 < j → Reach bodies (pfN bodies j) k → Reach bodies j k

/-- Number of strict descendants of index k in the parent relation
(internal to the C1 development). -/
def descCount (bodies : List Body) (k : Nat) : Nat :=
  ((List.range bodies.length).filter
    (fun j => decide (j ≠ k) && reachb bodies bodies.length j k)).length

/-- Build a body entry carrying only the tree-relevant data. -/
def mkBody (i : Int) (nm : String) (pid : Int) : Body :=
  { id := i, name := nm, parent_id := pid, geom_n := 0, geom_addr := 0,
    pos := ⟨0, 0, 0⟩, quat := ⟨1, 0, 0, 0⟩ }

/-- Modelled from the spec: the reference 14-body table of the
unitree_a1 scene.  The asset file behind the bodies()/bodies_tree tests is
not under src/, so the table is reconstructed from the spec's §8 name list
`world, trunk, FR_hip, ..., RL_calf` (ids in listed order, MuJoCo-style)
and the parent structure the spec states for it: trunk under the world
sentinel, each leg chained hip → thigh → calf under trunk. -/
def refBodies : List Body :=
  [ mkBody 0 ( "world" ) 0
  , mkBody 1 ( "trunk" ) 0
  , mkBody 2 ( "FR_hip" ) 1
  , mkBody 3 ( "FR_thigh" ) 2
  , mkBody 4 ( "FR_calf" ) 3
  , mkBody 5 ( "FL_hip" ) 1
  , mkBody 6 ( "FL_thigh" ) 5
  , mkBody 7 ( "FL_calf" ) 6
  , mkBody 8 ( "RR_hip" ) 1
  , mkBody 9 ( "RR_thigh" ) 8
  , mkBody 10 ( "RR_calf" ) 9
  , mkBody 11 ( "RL_hip" ) 1
  , mkBody 12 ( "RL_thigh" ) 11
  , mkBody 13 ( "RL_calf" ) 12 ]

/-- The fixed reference serialization from the bodies_tree test. -/
def refTreeString : String :=
  "trunk\n--RL_hip\n----RL_thigh\n------RL_calf\n--RR_hip\n----RR_thigh\n------RR_calf\n--FL_hip\n----FL_thigh\n------FL_calf\n--FR_hip\n----FR_thigh\n------FR_calf\n"

/-- A one-entry table holding only the world body (self-parented, id 0). -/
def worldOnly : List Body := [mkBody 0 ( "world" ) 0]

end Wrappers

/-- Assets path placeholder used in concrete evaluations. -/
def assetsPath : String := "assets"

/-- Concrete ellipsoid geom (wrappers revision). -/
def wEllipsoid : Wrappers.Geom :=
  { id := 0, name := "ell", geom_type := .ELLIPSOID, body_id := 1,
    pos := ⟨0, 0, 0⟩, quat := ⟨1, 0, 0, 0⟩, size := ⟨1, 1, 1⟩,
    color := ⟨1, 1, 1, 1⟩, mesh := none, geom_group := 0, geom_contype := 0 }

/-- Concrete height-field geom (wrappers revision). -/
def wHField : Wrappers.Geom :=
  { wEllipsoid with geom_type := .HFIELD }

/-- Concrete ellipsoid geom (lib revision). -/
def lEllipsoid : Lib.Geom :=
  { id := 0, name := "ell", geom_type := .ELLIPSOID, body_id := 1,
    parent_id := 0, pos := ⟨0, 0, 0⟩, quat := ⟨1, 0, 0, 0⟩,
    size := ⟨1, 1, 1⟩, color := ⟨1, 1, 1, 1⟩, mesh := none }

/-- Concrete plane geoms for the C8 witness (wrappers revision). -/
def wPlane5 : Wrappers.Geom :=
  { wEllipsoid with geom_type := .PLANE, size := ⟨5, 2, 3⟩ }

def wPlane0 : Wrappers.Geom :=
  { wEllipsoid with geom_type := .PLANE, size := ⟨0, 2, 3⟩ }

/-- Concrete sphere geom for the C9 witness (wrappers revision). -/
def wSphere : Wrappers.Geom :=
  { wEllipsoid with geom_type := .SPHERE, size := ⟨2, 3, 4⟩ }

/-- Concrete box geom for the C9 witness (wrappers revision). -/
def wBox : Wrappers.Geom :=
  { wEllipsoid with geom_type := .BOX, size := ⟨1, 2, 3⟩ }

/-- Concrete adapters-revision geoms. -/
def aBase : Adapters.Geom :=
  { geom_type := .BOX, body_id := 1, pos := ⟨0, 0, 0⟩,
    quat := ⟨1, 2, 3, 4⟩, size := ⟨1, 2, 3⟩, color := ⟨1, 1, 1, 1⟩,
    mesh := none }

def aMeshGeom : Adapters.Geom :=
  { aBase with geom_type := .MESH, mesh := some ⟨[], [], []⟩ }

def aSphere : Adapters.Geom :=
  { aBase with geom_type := .SPHERE }

def aCapsule : Adapters.Geom :=
  { aBase with geom_type := .CAPSULE }

def aPlane5 : Adapters.Geom :=
  { aBase with geom_type := .PLANE, size := ⟨5, 2, 3⟩ }

def aPlane0 : Adapters.Geom :=
  { aBase with geom_type := .PLANE, size := ⟨0, 2, 3⟩ }

/-- Concrete body owning two geoms, for the C3 development. -/
def wBody1 : Wrappers.Body :=
  { id := 1, name := "b1", parent_id := 0, geom_n := 2, geom_addr := 0,
    pos := ⟨0, 0, 0⟩, quat := ⟨1, 0, 0, 0⟩ }

/-- A mesh-kind geom of body 1 with visibility group 0. -/
def wMesh0 : Wrappers.Geom :=
  { wEllipsoid with
    geom_type := .MESH
    mesh := some ⟨[], [], [], "m" ⟩
    geom_group := 0 }

/-- A box-kind geom of body 1 with visibility group 1. -/
def wBox1 : Wrappers.Geom :=
  { wEllipsoid with id := 1, geom_type := .BOX, geom_group := 1 }

/-- The two-geom table of body 1: a mesh geom and a box geom. -/
def wGeoms2 : List Wrappers.Geom := [wMesh0, wBox1]

/-- Concrete body and single collision-group geom for the C10 witness. -/
def wBody3 : Wrappers.Body :=
  { wBody1 with id := 3, geom_n := 1, geom_addr := 1 }

def wGroup3 : Wrappers.Geom :=
  { wEllipsoid with
    id := 2
    geom_type := .SPHERE
    body_id := 3
    geom_group := 3 }

/-- Geom table where body 3 owns exactly one geom, of group 3. -/
def wGeomsC10 : List Wrappers.Geom := [wBox1, wGroup3]

/-- Concrete lib-revision body with no matching geom, for C6. -/
def lBody7 : Lib.Body :=
  { id := 7, name := "b7", parent_id := 0, root_id := 0, geom_n := 0,
    simple := 0, pos := ⟨0, 0, 0⟩, quat := ⟨1, 0, 0, 0⟩, mass := 1 }

/-- A nonempty lib-revision geom table containing no geom of body 7. -/
def lGeomsOther : List Lib.Geom :=
  [{ lEllipsoid with geom_type := .SPHERE, body_id := 3 }]

/-- Concrete lib-revision plane geom with zero first size component. -/
def lPlane0 : Lib.Geom :=
  { lEllipsoid with geom_type := .PLANE, size := ⟨0, 2, 3⟩ }

/-- Correspondence of quat_conv with the source: Body::rotation reads the
loader-swapped array (z,x,y,w) and produces exactly quat_conv applied to
the quadruple (x,y,z,w) stored in it. -/
theorem Wrappers.body_rotation_eq_quat_conv (b : Wrappers.Body) :
    b.rotation = Wrappers.quat_conv ⟨b.quat.a1, b.quat.a2, b.quat.a0, b.quat.a3⟩ := by
  simp [Wrappers.Body.rotation, Wrappers.quat_conv]

/-- Correspondence of quat_conv with the source, Geom::rotation version. -/
theorem Wrappers.geom_rotation_eq_quat_conv (g : Wrappers.Geom) :
    g.rotation = Wrappers.quat_conv ⟨g.quat.a1, g.quat.a2, g.quat.a0, g.quat.a3⟩ := by
  simp [Wrappers.Geom.rotation, Wrappers.quat_conv]

/-- C2: for the reference 14-body unitree table, the tree builder returns
exactly 2 roots, and the pop_back depth-first serialization of the
non-world tree with two dashes per level equals the fixed reference
string: trunk, then the RL, RR, FL, FR leg chains, each hip, thigh, calf. -/
theorem C2_reference_tree :
    (Wrappers.body_tree Wrappers.refBodies).length = 2 ∧
    Wrappers.print_body_tree_level
      ((Wrappers.body_tree Wrappers.refBodies).getD 1
        (Wrappers.BTree.node default Wrappers.Forest.nil)) 0 =
      Wrappers.refTreeString :=
  ⟨by decide, by decide⟩

/-- C4 counterexample: on a concrete Ellipsoid geom, mesh generation (in
both the wrappers and the lib revision) reaches a todo! arm and panics the
whole process, contrary to the claim that it signals a recoverable
"unsupported geometry kind" error and never panics. -/
theorem C4_counterexample :
    Wrappers.Geom.mesh_for wEllipsoid assetsPath = MeshResult.panicked ∧
    Lib.Geom.mesh_for lEllipsoid assetsPath = MeshResult.panicked := by
  decide

/-- C4 amended: for every Ellipsoid or HeightField geom, mesh generation
(wrappers and lib revisions) hits todo!() and panics the process; it never
returns a default or substitute mesh. -/
theorem C4_amended (g : Wrappers.Geom) (l : Lib.Geom) (path : String)
    (hg : g.geom_type = .ELLIPSOID ∨ g.geom_type = .HFIELD)
    (hl : l.geom_type = .ELLIPSOID ∨ l.geom_type = .HFIELD) :
    (g.mesh_for path = .panicked ∧ ∀ m, g.mesh_for path ≠ .ok m) ∧
    (l.mesh_for path = .panicked ∧ ∀ m, l.mesh_for path ≠ .ok m) := by
  rcases hg with h | h <;> rcases hl with h' | h' <;>
    simp [Wrappers.Geom.mesh_for, Lib.Geom.mesh_for, h, h']

/-- C4 witness: the amended theorem evaluated on a concrete height field
and a concrete ellipsoid. -/
theorem C4_witness :
    (Wrappers.Geom.mesh_for wHField assetsPath = .panicked ∧
      ∀ m, Wrappers.Geom.mesh_for wHField assetsPath ≠ .ok m) ∧
    (Lib.Geom.mesh_for lEllipsoid assetsPath = .panicked ∧
      ∀ m, Lib.Geom.mesh_for lEllipsoid assetsPath ≠ .ok m) :=
  C4_amended wHField lEllipsoid assetsPath (Or.inr (by decide)) (Or.inl (by decide))

/-- C5 counterexample: for a Mesh-kind geom the adapters orientation
conversion does not follow the claimed rule: at quat (w,x,y,z) =
(1,2,3,4) it returns the plain reorder (2,3,4,1) instead of the
swap-and-negate result (2,4,3,-1). -/
theorem C5_counterexample :
    Adapters.geom_rotation aMeshGeom ≠
      Adapters.to_render_orientation_spec aMeshGeom.quat ∧
    Adapters.geom_rotation aMeshGeom = ⟨2, 3, 4, 1⟩ ∧
    Adapters.to_render_orientation_spec aMeshGeom.quat = ⟨2, 4, 3, -1⟩ := by
  decide

/-- C5 amended: for every geom of non-Mesh kind the conversion reorders
(w,x,y,z) storage to (x,y,z,w), swaps the y and z vector components and
negates the scalar, exactly as the spec words it; Mesh-kind geoms instead
get the plain reorder with no swap and no negation. -/
theorem C5_amended (g : Adapters.Geom) :
    (g.geom_type ≠ .MESH →
      Adapters.geom_rotation g = Adapters.to_render_orientation_spec g.quat) ∧
    (g.geom_type = .MESH →
      Adapters.geom_rotation g =
        ⟨g.quat.a1, g.quat.a2, g.quat.a3, g.quat.a0⟩) := by
  constructor <;> intro h
  · rcases g with ⟨gt, bi, p, q, s, c, m⟩
    cases gt <;>
      simp_all [Adapters.geom_rotation, Adapters.to_render_orientation_spec]
  · simp [Adapters.geom_rotation, h]

/-- C5 witness: the amended theorem evaluated on a concrete box geom and a
concrete mesh geom. -/
theorem C5_witness :
    Adapters.geom_rotation aBase = Adapters.to_render_orientation_spec aBase.quat ∧
    Adapters.geom_rotation aMeshGeom =
      ⟨aMeshGeom.quat.a1, aMeshGeom.quat.a2, aMeshGeom.quat.a3, aMeshGeom.quat.a0⟩ :=
  ⟨(C5_amended aBase).1 (by decide), (C5_amended aMeshGeom).2 (by decide)⟩

/-- C6 counterexample: spawn_body on a concrete body that owns no geom
panics (Option::unwrap on the failed find), contrary to the claim that
bodies without a qualifying geom are skipped silently without aborting. -/
theorem C6_counterexample :
    Lib.spawn_body lBody7 lGeomsOther assetsPath = none ∧
    lGeomsOther.find? (fun g => g.body_id == lBody7.id) = none ∧
    lGeomsOther ≠ [] := by
  decide

/-- C6 amended: whenever no geom in the table carries the body's id,
spawn_body panics on the unwrap of the failed lookup (modelled as none);
such bodies abort the spawn instead of being skipped silently. -/
theorem C6_amended (body : Lib.Body) (geoms : List Lib.Geom) (path : String)
    (h : geoms.find? (fun g => g.body_id == body.id) = none) :
    Lib.spawn_body body geoms path = none := by
  simp [Lib.spawn_body, h]

/-- C6 witness: the amended theorem evaluated on the concrete geom-less
body. -/
theorem C6_witness : Lib.spawn_body lBody7 lGeomsOther assetsPath = none :=
  C6_amended lBody7 lGeomsOther assetsPath (by decide)

/-- C7: the component conversion (x,y,z,w) ↦ (x,z,y,-w) realized by the
wrappers rotation functions is an involution: applying it twice returns
the original quaternion exactly. -/
theorem C7_conversion_involution (q : Quat4) :
    Wrappers.quat_conv (Wrappers.quat_conv q) = q := by
  cases q
  simp [Wrappers.quat_conv]

/-- C8 counterexample: in the cited lib.rs revision, a concrete Plane
geom with zero first size component is rendered as a Box built from all
three size components — not a finite quad, and with no 1e6
substitution. -/
theorem C8_counterexample :
    Lib.Geom.mesh_for lPlane0 assetsPath = .ok (.box 0 2 3) ∧
    (∀ s, Lib.Geom.mesh_for lPlane0 assetsPath ≠ .ok (.plane s)) ∧
    lPlane0.geom_type = GeomType.PLANE ∧ lPlane0.size.a0 = 0 := by
  refine ⟨by decide, ?_, by decide, by decide⟩
  intro s h
  rw [show Lib.Geom.mesh_for lPlane0 assetsPath = .ok (.box 0 2 3) from by decide] at h
  simp at h

/-- C8 amended: in the wrappers and adapters revisions every Plane geom
yields a quad whose extent is the first size component when that
component is positive, and the fixed finite extent 1e6 when it is exactly
zero; in the lib revision a Plane geom instead yields a Box built from
the three size components, with no infinite-size substitution. -/
theorem C8_plane_mesh (g : Wrappers.Geom) (a : Adapters.Geom) (l : Lib.Geom)
    (path : String)
    (hg : g.geom_type = .PLANE) (ha : a.geom_type = .PLANE)
    (hl : l.geom_type = .PLANE) :
    (0 < g.size.a0 → g.mesh_for path = .ok (.plane g.size.a0)) ∧
    (g.size.a0 = 0 → g.mesh_for path = .ok (.plane 1000000)) ∧
    (0 < a.size.x → Adapters.geom_mesh a = .ok (.plane a.size.x)) ∧
    (a.size.x = 0 → Adapters.geom_mesh a = .ok (.plane 1000000)) ∧
    l.mesh_for path = .ok (.box l.size.a0 l.size.a1 l.size.a2) := by
  refine ⟨?_, ?_, ?_, ?_, ?_⟩
  · intro h
    simp [Wrappers.Geom.mesh_for, hg, h]
  · intro h
    simp [Wrappers.Geom.mesh_for, hg, h]
  · intro h
    simp [Adapters.geom_mesh, ha, h]
  · intro h
    simp [Adapters.geom_mesh, ha, h]
  · simp [Lib.Geom.mesh_for, hl]

/-- C8 witness: the amended theorem evaluated on concrete planes of size
5 and size 0 in the wrappers and adapters revisions, and on the concrete
lib-revision plane. -/
theorem C8_witness :
    Wrappers.Geom.mesh_for wPlane5 assetsPath = .ok (.plane 5) ∧
    Wrappers.Geom.mesh_for wPlane0 assetsPath = .ok (.plane 1000000) ∧
    Adapters.geom_mesh aPlane5 = .ok (.plane 5) ∧
    Adapters.geom_mesh aPlane0 = .ok (.plane 1000000) ∧
    Lib.Geom.mesh_for lPlane0 assetsPath = .ok (.box 0 2 3) :=
  ⟨(C8_plane_mesh wPlane5 aPlane5 lPlane0 assetsPath (by decide) (by decide)
      (by decide)).1 (by decide),
   (C8_plane_mesh wPlane0 aPlane0 lPlane0 assetsPath (by decide) (by decide)
      (by decide)).2.1 (by decide),
   (C8_plane_mesh wPlane5 aPlane5 lPlane0 assetsPath (by decide) (by decide)
      (by decide)).2.2.1 (by decide),
   (C8_plane_mesh wPlane0 aPlane0 lPlane0 assetsPath (by decide) (by decide)
      (by decide)).2.2.2.1 (by decide),
   (C8_plane_mesh wPlane0 aPlane0 lPlane0 assetsPath (by decide) (by decide)
      (by decide)).2.2.2.2⟩

/-- C9: for every geom the anchor correction is zero in both horizontal
components, and for every shape kind other than Box, Capsule and Cylinder
it is the zero vector — wrappers and adapters revisions. -/
theorem C9_correction_vertical_only (g : Wrappers.Geom) (a : Adapters.Geom) :
    (g.correction.x = 0 ∧ g.correction.z = 0) ∧
    ((Adapters.geom_correction a).x = 0 ∧ (Adapters.geom_correction a).z = 0) ∧
    (g.geom_type ≠ .BOX → g.geom_type ≠ .CAPSULE → g.geom_type ≠ .CYLINDER →
      g.correction = ⟨0, 0, 0⟩) ∧
    (a.geom_type ≠ .BOX → a.geom_type ≠ .CAPSULE → a.geom_type ≠ .CYLINDER →
      Adapters.geom_correction a = ⟨0, 0, 0⟩) := by
  refine ⟨?_, ?_, ?_, ?_⟩
  · rcases g with ⟨i, n, gt, bi, p, q, s, c, m, gg, gc⟩
    cases gt <;> simp [Wrappers.Geom.correction]
  · rcases a with ⟨gt, bi, p, q, s, c, m⟩
    cases gt <;> simp [Adapters.geom_correction]
  · intro h1 h2 h3
    rcases g with ⟨i, n, gt, bi, p, q, s, c, m, gg, gc⟩
    cases gt <;> simp_all [Wrappers.Geom.correction]
  · intro h1 h2 h3
    rcases a with ⟨gt, bi, p, q, s, c, m⟩
    cases gt <;> simp_all [Adapters.geom_correction]

/-- C9 witness: the theorem evaluated on a concrete box and a concrete
sphere (wrappers) and the adapters counterparts. -/
theorem C9_witness :
    (wBox.correction.x = 0 ∧ wBox.correction.z = 0) ∧
    ((Adapters.geom_correction aCapsule).x = 0 ∧
      (Adapters.geom_correction aCapsule).z = 0) ∧
    wSphere.correction = ⟨0, 0, 0⟩ ∧
    Adapters.geom_correction aSphere = ⟨0, 0, 0⟩ :=
  ⟨(C9_correction_vertical_only wBox aCapsule).1,
   (C9_correction_vertical_only wBox aCapsule).2.1,
   (C9_correction_vertical_only wSphere aSphere).2.2.1 (by decide) (by decide) (by decide),
   (C9_correction_vertical_only wSphere aSphere).2.2.2 (by decide) (by decide) (by decide)⟩

/-- C10: when exactly one geom in the table carries the queried body's id,
render_geom returns exactly that geom, bypassing the visibility-group
filter and the tie-break — its group may be at or above 3. -/
theorem C10_single_geom_shortcut (b : Wrappers.Body)
    (geoms : List Wrappers.Geom) (g : Wrappers.Geom)
    (h : geoms.filter (fun x => x.body_id == b.id) = [g]) :
    b.render_geom geoms = some (some g) := by
  simp [Wrappers.Body.render_geom, h]

/-- C10 witness: the theorem evaluated on a body owning exactly one geom
whose visibility group is 3 (at the collision-only threshold). -/
theorem C10_witness :
    wGeomsC10.filter (fun x => x.body_id == wBody3.id) = [wGroup3] ∧
    3 ≤ wGroup3.geom_group ∧
    wBody3.render_geom wGeomsC10 = some (some wGroup3) :=
  ⟨by decide, by decide,
   C10_single_geom_shortcut wBody3 wGeomsC10 wGroup3 (by decide)⟩

/-- C1 counterexample: for the one-entry table holding only the
self-parented world body, the returned forest has 1 node while 0 bodies
are non-self-parented, refuting the claimed node-count equality. -/
theorem C1_counterexample :
    Wrappers.totalNodes (Wrappers.body_tree Wrappers.worldOnly) ≠
      Wrappers.worldOnly.countP (fun b => b.id != b.parent_id) := by
  decide

/-- The comparator characterized: g1 sorts strictly before g2 iff g1 is a
Mesh and g2 is not, or the two are in the same mesh-kind class and g2's
group is at most g1's. -/
theorem Wrappers.geomCmp_lt_iff (g1 g2 : Wrappers.Geom) :
    Wrappers.geomCmp g1 g2 = Ordering.lt ↔
      ((g1.geom_type = GeomType.MESH ∧ g2.geom_type ≠ GeomType.MESH) ∨
        ((g1.geom_type = GeomType.MESH ↔ g2.geom_type = GeomType.MESH) ∧
          g2.geom_group ≤ g1.geom_group)) := by
  by_cases h1 : g1.geom_type = GeomType.MESH <;>
    by_cases h2 : g2.geom_type = GeomType.MESH <;>
      by_cases h3 : g1.geom_group < g2.geom_group <;>
        simp [Wrappers.geomCmp, h1, h2, h3] <;> omega

/-- The strict-before relation of the comparator is total (ties compare
strictly-before in both directions). -/
theorem Wrappers.geomCmp_total (a b : Wrappers.Geom) :
    Wrappers.geomCmp a b = Ordering.lt ∨ Wrappers.geomCmp b a = Ordering.lt := by
  by_cases ha : a.geom_type = GeomType.MESH <;>
    by_cases hb : b.geom_type = GeomType.MESH <;>
      simp [Wrappers.geomCmp_lt_iff, ha, hb] <;> omega

/-- The strict-before relation of the comparator is transitive. -/
theorem Wrappers.geomCmp_trans (a b c : Wrappers.Geom)
    (hab : Wrappers.geomCmp a b = Ordering.lt)
    (hbc : Wrappers.geomCmp b c = Ordering.lt) :
    Wrappers.geomCmp a c = Ordering.lt := by
  rw [Wrappers.geomCmp_lt_iff] at hab hbc ⊢
  by_cases ha : a.geom_type = GeomType.MESH <;>
    by_cases hb : b.geom_type = GeomType.MESH <;>
      by_cases hc : c.geom_type = GeomType.MESH <;>
        simp_all <;> omega

/-- Boolean equality with Ordering.lt coincides with propositional
equality. -/
theorem Wrappers.ordBeq_lt_iff {o : Ordering} :
    (o == Ordering.lt) = true ↔ o = Ordering.lt := by
  cases o <;> simp <;> decide

/-- insertSorted inserts exactly the given element (permutation view). -/
theorem Wrappers.insertSorted_perm (cmp) (x : Wrappers.Geom)
    (l : List Wrappers.Geom) :
    (Wrappers.insertSorted cmp x l).Perm (x :: l) := by
  induction l with
  | nil => simp [Wrappers.insertSorted]
  | cons y ys ih =>
      by_cases h : (cmp y x == Ordering.lt) = true
      · rw [Wrappers.insertSorted, if_pos h]
        exact (List.Perm.cons y ih).trans (List.Perm.swap x y ys)
      · rw [Wrappers.insertSorted, if_neg h]

/-- sortedBy permutes its input. -/
theorem Wrappers.sortedBy_perm (cmp) (l : List Wrappers.Geom) :
    (Wrappers.sortedBy cmp l).Perm l := by
  induction l with
  | nil => simp [Wrappers.sortedBy]
  | cons x xs ih =>
      exact ((Wrappers.insertSorted_perm cmp x _).trans
        (List.Perm.cons x ih))

/-- Inserting into a pairwise strictly-before-sorted list keeps it sorted
for the render_geom comparator. -/
theorem Wrappers.insertSorted_pairwise (x : Wrappers.Geom)
    (l : List Wrappers.Geom)
    (hl : l.Pairwise (fun a b => Wrappers.geomCmp a b = Ordering.lt)) :
    (Wrappers.insertSorted Wrappers.geomCmp x l).Pairwise
      (fun a b => Wrappers.geomCmp a b = Ordering.lt) := by
  induction l with
  | nil => simp [Wrappers.insertSorted]
  | cons y ys ih =>
      rcases List.pairwise_cons.mp hl with ⟨hy, hys⟩
      by_cases h : (Wrappers.geomCmp y x == Ordering.lt) = true
      · rw [Wrappers.insertSorted, if_pos h]
        refine List.pairwise_cons.mpr ⟨?_, ih hys⟩
        intro z hz
        have hz' : z ∈ x :: ys :=
          (Wrappers.insertSorted_perm Wrappers.geomCmp x ys).mem_iff.mp hz
        rcases List.mem_cons.mp hz' with rfl | hz''
        · exact Wrappers.ordBeq_lt_iff.mp h
        · exact hy z hz''
      · rw [Wrappers.insertSorted, if_neg h]
        have hxy : Wrappers.geomCmp x y = Ordering.lt := by
          rcases Wrappers.geomCmp_total y x with h' | h'
          · exact absurd (Wrappers.ordBeq_lt_iff.mpr h') h
          · exact h'
        refine List.pairwise_cons.mpr ⟨?_, hl⟩
        intro z hz
        rcases List.mem_cons.mp hz with rfl | hz'
        · exact hxy
        · exact Wrappers.geomCmp_trans x y z hxy (hy z hz')

/-- sortedBy produces a pairwise strictly-before-sorted list for the
render_geom comparator. -/
theorem Wrappers.sortedBy_pairwise (l : List Wrappers.Geom) :
    (Wrappers.sortedBy Wrappers.geomCmp l).Pairwise
      (fun a b => Wrappers.geomCmp a b = Ordering.lt) := by
  induction l with
  | nil => simp [Wrappers.sortedBy]
  | cons x xs ih => exact Wrappers.insertSorted_pairwise x _ ih

/-- In a pairwise-related list every member either is the last element or
relates to it. -/
theorem Wrappers.pairwise_rel_getLast {R : Wrappers.Geom → Wrappers.Geom → Prop}
    (l : List Wrappers.Geom) (h : l ≠ []) (hp : l.Pairwise R)
    (z : Wrappers.Geom) (hz : z ∈ l) :
    z = l.getLast h ∨ R z (l.getLast h) := by
  induction l with
  | nil => exact absurd rfl h
  | cons a t ih =>
      rcases List.pairwise_cons.mp hp with ⟨ha, ht⟩
      cases t with
      | nil =>
          rcases List.mem_cons.mp hz with rfl | hz'
          · left; rfl
          · exact absurd hz' (List.not_mem_nil z)
      | cons b t' =>
          have hne : (b :: t') ≠ [] := by simp
          have hlast : (a :: b :: t').getLast h = (b :: t').getLast hne := by
            simp [List.getLast_cons]
          rcases List.mem_cons.mp hz with rfl | hz'
          · right
            rw [hlast]
            exact ha _ (List.getLast_mem hne)
          · rw [hlast]
            exact ih hne ht hz'

/-- C3 counterexample: body 1 owns two candidate geoms, a Mesh geom of
group 0 and a Box geom of group 1, both below the group threshold; the
claim says the Mesh geom is preferred, yet render_geom returns the Box
geom. -/
theorem C3_counterexample :
    wBody1.render_geom wGeoms2 = some (some wBox1) ∧
    wBox1.geom_type ≠ GeomType.MESH ∧
    wMesh0 ∈ wGeoms2 ∧ wMesh0.geom_type = GeomType.MESH ∧
    wMesh0.geom_group < 3 ∧ wMesh0.body_id = wBody1.id := by
  decide

/-- C3 amended: for a body owning more than one geom (and whose slice
bounds are valid), render_geom restricts to candidates of visibility
group below 3; among those it prefers a primitive geom over any Mesh-kind
geom (the opposite of the claimed preference); remaining ties are broken
by the lowest group value; and it returns none exactly when no candidate
passes the filter. -/
theorem C3_amended (b : Wrappers.Body) (geoms bg : List Wrappers.Geom)
    (hmulti : 1 < (geoms.filter (fun g => g.body_id == b.id)).length)
    (hbg : b.geomsOf geoms = some bg) :
    (b.render_geom geoms = some none ↔
      bg.filter (fun g => decide (g.geom_group < 3)) = []) ∧
    ∀ g, b.render_geom geoms = some (some g) →
      g ∈ bg.filter (fun g => decide (g.geom_group < 3)) ∧
      g.geom_group < 3 ∧
      (∀ p ∈ bg.filter (fun g => decide (g.geom_group < 3)),
        p.geom_type ≠ GeomType.MESH → g.geom_type ≠ GeomType.MESH) ∧
      (∀ p ∈ bg.filter (fun g => decide (g.geom_group < 3)),
        (p.geom_type = GeomType.MESH ↔ g.geom_type = GeomType.MESH) →
          g.geom_group ≤ p.geom_group) := by
  have hlen : ((geoms.filter (fun g => g.body_id == b.id)).length == 1) = false := by
    simp only [beq_eq_false_iff_ne]
    omega
  have hrg : b.render_geom geoms =
      some ((Wrappers.sortedBy Wrappers.geomCmp
        (bg.filter (fun g => decide (g.geom_group < 3)))).getLast?) := by
    rw [Wrappers.Body.render_geom]
    simp only [hlen, hbg, Bool.false_eq_true, if_false]
  set flt := bg.filter (fun g => decide (g.geom_group < 3)) with hflt
  have hperm := Wrappers.sortedBy_perm Wrappers.geomCmp flt
  constructor
  · rw [hrg]
    simp only [Option.some.injEq]
    rw [List.getLast?_eq_none_iff]
    constructor
    · intro hs
      have := hperm.length_eq
      rw [hs] at this
      exact List.length_eq_zero.mp this.symm
    · intro hs
      have h2 : flt.Perm ([] : List Wrappers.Geom) := by
        rw [hs]
      exact (hperm.trans h2).eq_nil
  · intro g hg
    rw [hrg] at hg
    have hg' : (Wrappers.sortedBy Wrappers.geomCmp flt).getLast? = some g :=
      Option.some_inj.mp hg
    have hne : Wrappers.sortedBy Wrappers.geomCmp flt ≠ [] := by
      intro hnil
      rw [hnil] at hg'
      simp at hg'
    have hgl : g = (Wrappers.sortedBy Wrappers.geomCmp flt).getLast hne := by
      rw [List.getLast?_eq_getLast _ hne] at hg'
      exact (Option.some_inj.mp hg').symm
    have hmem : g ∈ flt := by
      rw [hgl]
      exact hperm.mem_iff.mp (List.getLast_mem hne)
    have hgrp : g.geom_group < 3 := by
      have := List.mem_filter.mp hmem
      exact of_decide_eq_true this.2
    refine ⟨hmem, hgrp, ?_, ?_⟩
    · intro p hp hpm
      intro hgm
      have hps : p ∈ Wrappers.sortedBy Wrappers.geomCmp flt :=
        hperm.mem_iff.mpr hp
      rcases Wrappers.pairwise_rel_getLast _ hne
          (Wrappers.sortedBy_pairwise flt) p hps with heq | hrel
      · rw [← hgl] at heq
        exact hpm (heq ▸ hgm)
      · rw [← hgl] at hrel
        rw [Wrappers.geomCmp_lt_iff] at hrel
        rcases hrel with ⟨hp1, _⟩ | ⟨hiff, _⟩
        · exact hpm hp1
        · exact hpm (hiff.mpr hgm)
    · intro p hp hiff
      have hps : p ∈ Wrappers.sortedBy Wrappers.geomCmp flt :=
        hperm.mem_iff.mpr hp
      rcases Wrappers.pairwise_rel_getLast _ hne
          (Wrappers.sortedBy_pairwise flt) p hps with heq | hrel
      · rw [← hgl] at heq
        rw [heq]
      · rw [← hgl] at hrel
        rw [Wrappers.geomCmp_lt_iff] at hrel
        rcases hrel with ⟨hp1, hg1⟩ | ⟨_, hle⟩
        · exact absurd (hiff.mp hp1) hg1
        · exact hle

/-- C3 witness: the amended theorem evaluated on the concrete two-geom
body. -/
theorem C3_witness :
    1 < (wGeoms2.filter (fun g => g.body_id == wBody1.id)).length ∧
    wBody1.geomsOf wGeoms2 = some wGeoms2 ∧
    ((wBody1.render_geom wGeoms2 = some none ↔
       wGeoms2.filter (fun g => decide (g.geom_group < 3)) = []) ∧
     ∀ g, wBody1.render_geom wGeoms2 = some (some g) →
       g ∈ wGeoms2.filter (fun g => decide (g.geom_group < 3)) ∧
       g.geom_group < 3 ∧
       (∀ p ∈ wGeoms2.filter (fun g => decide (g.geom_group < 3)),
         p.geom_type ≠ GeomType.MESH → g.geom_type ≠ GeomType.MESH) ∧
       (∀ p ∈ wGeoms2.filter (fun g => decide (g.geom_group < 3)),
         (p.geom_type = GeomType.MESH ↔ g.geom_type = GeomType.MESH) →
           g.geom_group ≤ p.geom_group)) :=
  ⟨by decide, by decide, C3_amended wBody1 wGeoms2 wGeoms2 (by decide) (by decide)⟩

/-- The default body is the all-zero entry. -/
theorem Wrappers.default_parent_id : (default : Wrappers.Body).parent_id = 0 := rfl

/-- Outside the table the parent function is 0. -/
theorem Wrappers.pfN_of_ge {bodies : List Wrappers.Body} {j : Nat}
    (h : bodies.length ≤ j) : Wrappers.pfN bodies j = 0 := by
  unfold Wrappers.pfN
  rw [List.getD_eq_default _ _ h, Wrappers.default_parent_id]
  rfl

/-- On a well-formed table the parent of a positive index is smaller. -/
theorem Wrappers.pfN_lt {bodies : List Wrappers.Body}
    (hpar : ∀ j, j < bodies.length → 1 ≤ j →
      0 ≤ (bodies.getD j default).parent_id ∧
        (bodies.getD j default).parent_id < (j : Int))
    {j : Nat} (h1 : 1 ≤ j) (h2 : j < bodies.length) :
    Wrappers.pfN bodies j < j := by
  rcases hpar j h2 h1 with ⟨hnn, hlt⟩
  unfold Wrappers.pfN
  exact (Int.toNat_lt hnn).mpr hlt

/-- On a well-formed table the parent function never increases. -/
theorem Wrappers.pfN_le {bodies : List Wrappers.Body}
    (hpar : ∀ j, j < bodies.length → 1 ≤ j →
      0 ≤ (bodies.getD j default).parent_id ∧
        (bodies.getD j default).parent_id < (j : Int))
    (h0 : 0 < bodies.length → (bodies.getD 0 default).parent_id = 0)
    (j : Nat) : Wrappers.pfN bodies j ≤ j := by
  rcases Nat.lt_or_ge j bodies.length with hlt | hge
  · rcases Nat.eq_zero_or_pos j with rfl | hpos
    · unfold Wrappers.pfN
      rw [h0 (by omega)]
      simp
    · exact Nat.le_of_lt (Wrappers.pfN_lt hpar hpos hlt)
  · rw [Wrappers.pfN_of_ge hge]
    exact Nat.zero_le j

/-- Bounded reachability implies the inductive one. -/
theorem Wrappers.reach_of_reachb {bodies : List Wrappers.Body} :
    ∀ (f j k : Nat), Wrappers.reachb bodies f j k = true →
      Wrappers.Reach bodies j k := by
  intro f
  induction f with
  | zero =>
      intro j k h
      rw [Wrappers.reachb] at h
      have hjk : j = k := beq_iff_eq.mp h
      subst hjk
      exact Wrappers.Reach.refl j
  | succ f ih =>
      intro j k h
      rw [Wrappers.reachb] at h
      rcases Bool.or_eq_true_iff.mp h with h1 | h2
      · have hjk : j = k := beq_iff_eq.mp h1
        subst hjk
        exact Wrappers.Reach.refl j
      · rcases Bool.and_eq_true_iff.mp h2 with ⟨hj, hr⟩
        exact Wrappers.Reach.step j k (of_decide_eq_true hj) (ih _ _ hr)

/-- The inductive reachability implies the bounded one, with any fuel at
least the start index (chains strictly descend on well-formed tables). -/
theorem Wrappers.reachb_of_reach {bodies : List Wrappers.Body}
    (hpar : ∀ j, j < bodies.length → 1 ≤ j →
      0 ≤ (bodies.getD j default).parent_id ∧
        (bodies.getD j default).parent_id < (j : Int))
    (h0 : 0 < bodies.length → (bodies.getD 0 default).parent_id = 0)
    {j k : Nat} (h : Wrappers.Reach bodies j k) :
    ∀ f, j ≤ f → Wrappers.reachb bodies f j k = true := by
  induction h with
  | refl j =>
      intro f _
      cases f <;> simp [Wrappers.reachb]
  | step j k hj hr ih =>
      intro f hf
      have hf1 : 1 ≤ f := Nat.le_trans hj hf
      obtain ⟨f', rfl⟩ : ∃ f', f = f' + 1 :=
        ⟨f - 1, by omega⟩
      rw [Wrappers.reachb]
      have hpf : Wrappers.pfN bodies j ≤ f' := by
        rcases Nat.lt_or_ge j bodies.length with hlt | hge
        · have := Wrappers.pfN_lt hpar hj hlt
          omega
        · rw [Wrappers.pfN_of_ge hge]
          exact Nat.zero_le f'
      rw [ih f' hpf]
      simp [hj]

/-- Reachability only descends. -/
theorem Wrappers.reach_le {bodies : List Wrappers.Body}
    (hpar : ∀ j, j < bodies.length → 1 ≤ j →
      0 ≤ (bodies.getD j default).parent_id ∧
        (bodies.getD j default).parent_id < (j : Int))
    (h0 : 0 < bodies.length → (bodies.getD 0 default).parent_id = 0)
    {j k : Nat} (h : Wrappers.Reach bodies j k) : k ≤ j := by
  induction h with
  | refl j => exact Nat.le_refl j
  | step j k hj hr ih =>
      exact Nat.le_trans ih (Wrappers.pfN_le hpar h0 j)

/-- Reachability is transitive. -/
theorem Wrappers.reach_trans {bodies : List Wrappers.Body} {i j k : Nat}
    (h1 : Wrappers.Reach bodies i j) (h2 : Wrappers.Reach bodies j k) :
    Wrappers.Reach bodies i k := by
  induction h1 with
  | refl => exact h2
  | step i j hi hr ih => exact Wrappers.Reach.step i k hi (ih h2)

/-- From index 0 only 0 is reachable. -/
theorem Wrappers.reach_zero {bodies : List Wrappers.Body} {k : Nat}
    (h : Wrappers.Reach bodies 0 k) : k = 0 := by
  cases h with
  | refl => rfl
  | step _ _ hj _ => exact absurd hj (by omega)

/-- Two targets reachable from the same start lie on one chain. -/
theorem Wrappers.reach_linear {bodies : List Wrappers.Body}
    (hpar : ∀ j, j < bodies.length → 1 ≤ j →
      0 ≤ (bodies.getD j default).parent_id ∧
        (bodies.getD j default).parent_id < (j : Int))
    (h0 : 0 < bodies.length → (bodies.getD 0 default).parent_id = 0) :
    ∀ p a b, Wrappers.Reach bodies p a → Wrappers.Reach bodies p b →
      Wrappers.Reach bodies a b ∨ Wrappers.Reach bodies b a := by
  intro p
  induction p using Nat.strong_induction_on with
  | _ p ih =>
      intro a b ha hb
      cases ha with
      | refl => exact Or.inl hb
      | step _ _ hp0 ha' =>
          cases hb with
          | refl => exact Or.inr (Wrappers.Reach.step p a hp0 ha')
          | step _ _ _ hb' =>
              rcases Nat.lt_or_ge p bodies.length with hlt | hge
              · exact ih (Wrappers.pfN bodies p)
                  (Wrappers.pfN_lt hpar hp0 hlt) a b ha' hb'
              · rw [Wrappers.pfN_of_ge hge] at ha' hb'
                rw [Wrappers.reach_zero ha', Wrappers.reach_zero hb']
                exact Or.inl (Wrappers.Reach.refl 0)

/-- Sum over the mapped image of a filtered list, re-indexed by position. -/
theorem List.sum_filter_map_by_index {α : Type} [Inhabited α] :
    ∀ (l : List α) (p : α → Bool) (F : α → Nat),
      ((l.filter p).map F).sum =
        (((List.range l.length).filter (fun j => p (l.getD j default))).map
          (fun j => F (l.getD j default))).sum := by
  intro l
  induction l with
  | nil => intro p F; simp
  | cons a t ih =>
      intro p F
      rw [List.length_cons, List.range_succ_eq_map]
      rw [List.filter_cons]
      by_cases h : p a
      · simp only [List.getD_cons_zero, h, if_pos, List.filter_cons,
          List.map_cons, List.sum_cons]
        rw [List.filter_map, List.map_map]
        simp only [Function.comp_def, List.getD_cons_succ]
        rw [ih]
      · simp only [List.getD_cons_zero, h, List.filter_cons,
          Bool.false_eq_true, if_false]
        rw [List.filter_map, List.map_map]
        simp only [Function.comp_def, List.getD_cons_succ]
        rw [ih]

/-- Summing the constant one over a list gives its length. -/
theorem List.sum_map_one {β : Type} (m : List β) :
    (m.map (fun _ => 1)).sum = m.length := by
  induction m with
  | nil => rfl
  | cons x xs ihm => simp [ihm]; omega

/-- Length of a filtered list, re-indexed by position. -/
theorem List.length_filter_by_index {α : Type} [Inhabited α]
    (l : List α) (p : α → Bool) :
    (l.filter p).length =
      ((List.range l.length).filter (fun j => p (l.getD j default))).length := by
  have h1 := List.sum_filter_map_by_index l p (fun _ => 1)
  rw [List.sum_map_one, List.sum_map_one] at h1
  exact h1

/-- countP of a disjunction of disjoint predicates adds up. -/
theorem List.countP_or_disjoint {α : Type} :
    ∀ (l : List α) (p q : α → Bool),
      (∀ a ∈ l, ¬(p a = true ∧ q a = true)) →
      l.countP (fun a => p a || q a) = l.countP p + l.countP q := by
  intro l p q
  induction l with
  | nil => intro _; simp
  | cons a t ih =>
      intro hd
      have ht : ∀ x ∈ t, ¬(p x = true ∧ q x = true) := by
        intro x hx
        exact hd x (List.mem_cons_of_mem a hx)
      rw [List.countP_cons, List.countP_cons, List.countP_cons, ih ht]
      by_cases hp : p a = true <;> by_cases hq : q a = true
      · exact absurd ⟨hp, hq⟩ (hd a (List.mem_cons_self a t))
      · simp [hp, hq]; omega
      · simp [hp, hq]; omega
      · simp [hp, hq]

/-- countP of membership in a family of pairwise-disjoint predicates is
the sum of the individual counts. -/
theorem List.countP_any_disjoint {α : Type} :
    ∀ (cs : List Nat) (l : List α) (pred : Nat → α → Bool),
      cs.Nodup →
      (∀ j ∈ l, ∀ c ∈ cs, ∀ c' ∈ cs,
        pred c j = true → pred c' j = true → c = c') →
      l.countP (fun j => cs.any (fun c => pred c j)) =
        (cs.map (fun c => l.countP (pred c))).sum := by
  intro cs
  induction cs with
  | nil => intro l pred _ _; simp
  | cons c cs' ih =>
      intro l pred hnd hdisj
      have hnd' : cs'.Nodup := (List.nodup_cons.mp hnd).2
      have hcnot : c ∉ cs' := (List.nodup_cons.mp hnd).1
      have hstep : l.countP (fun j => pred c j || cs'.any (fun d => pred d j)) =
          l.countP (pred c) + l.countP (fun j => cs'.any (fun d => pred d j)) := by
        apply List.countP_or_disjoint
        intro a ha ⟨h1, h2⟩
        rcases List.any_eq_true.mp h2 with ⟨c', hc', hpc'⟩
        exact hcnot (hdisj a ha c (List.mem_cons_self c cs') c'
          (List.mem_cons_of_mem c hc') h1 hpc' ▸ hc')
      have hrec := ih l pred hnd' (by
        intro j hj d hd d' hd'
        exact hdisj j hj d (List.mem_cons_of_mem c hd) d'
          (List.mem_cons_of_mem c hd'))
      calc l.countP (fun j => (c :: cs').any (fun d => pred d j))
          = l.countP (fun j => pred c j || cs'.any (fun d => pred d j)) := by
            simp only [List.any_cons]
        _ = l.countP (pred c) + l.countP (fun j => cs'.any (fun d => pred d j)) := hstep
        _ = l.countP (pred c) + (cs'.map (fun d => l.countP (pred d))).sum := by
            rw [hrec]
        _ = ((c :: cs').map (fun d => l.countP (pred d))).sum := by
            simp

/-- Sizes distribute over ofList. -/
theorem Wrappers.forestSize_ofList :
    ∀ l : List Wrappers.BTree,
      Wrappers.forestSize (Wrappers.ofList l) = (l.map Wrappers.treeSize).sum := by
  intro l
  induction l with
  | nil => rfl
  | cons t ts ih =>
      simp only [Wrappers.ofList, List.foldr_cons, List.map_cons, List.sum_cons]
      rw [Wrappers.forestSize]
      rw [← ih]
      rfl

/-- Collecting children of the world node yields the empty forest: the
child filter requires a non-world parent. -/
theorem Wrappers.collect_children_zero (bodies : List Wrappers.Body) :
    ∀ f, Wrappers.forestSize (Wrappers.collect_children f 0 bodies) = 0 := by
  intro f
  cases f with
  | zero => rfl
  | succ f =>
      rw [Wrappers.collect_children]
      have hfil : bodies.filter (Wrappers.childFilter 0) = [] := by
        apply List.filter_eq_nil_iff.mpr
        intro c _
        unfold Wrappers.childFilter
        by_cases h : c.parent_id = 0 <;> simp [h]
      rw [hfil]
      rfl

/-- Summing one-plus-values over a list. -/
theorem List.sum_map_one_add {α : Type} (l : List α) (h : α → Nat) :
    (l.map (fun a => 1 + h a)).sum = l.length + (l.map h).sum := by
  induction l with
  | nil => rfl
  | cons a t ih => simp [ih]; omega

/-- Two booleans agreeing as propositions are equal. -/
theorem boolEq_of_iff {a b : Bool} (h : a = true ↔ b = true) : a = b := by
  cases a <;> cases b <;> simp_all

/-- countP of equality-with-c over range n is one when c < n. -/
theorem List.countP_beq_range {c n : Nat} (h : c < n) :
    (List.range n).countP (fun j => j == c) = 1 := by
  induction n with
  | zero => omega
  | succ n ihn =>
      rw [List.range_succ, List.countP_append]
      by_cases hc : c < n
      · rw [ihn hc]
        have hz : List.countP (fun j => j == c) [n] = 0 := by
          apply List.countP_eq_zero.mpr
          intro a ha
          simp only [List.mem_singleton] at ha
          subst ha
          simp only [beq_iff_eq]
          omega
        rw [hz]
      · have hcn : c = n := by omega
        subst hcn
        have hz : (List.range c).countP (fun j => j == c) = 0 := by
          apply List.countP_eq_zero.mpr
          intro a ha
          rw [List.mem_range] at ha
          simp only [beq_iff_eq]
          omega
        rw [hz]
        simp

/-- The child filter at the index level: on a well-formed table, the body
at index j passes childFilter k (k positive) iff its parent index is k
and it is not index k itself. -/
theorem Wrappers.childFilter_getD_iff {bodies : List Wrappers.Body}
    (hid : ∀ j, j < bodies.length → (bodies.getD j default).id = (j : Int))
    (hpar : ∀ j, j < bodies.length → 1 ≤ j →
      0 ≤ (bodies.getD j default).parent_id ∧
        (bodies.getD j default).parent_id < (j : Int))
    (h0 : 0 < bodies.length → (bodies.getD 0 default).parent_id = 0)
    {k j : Nat} (hk1 : 1 ≤ k) (hj : j < bodies.length) :
    (Wrappers.childFilter (k : Int) (bodies.getD j default) = true) ↔
      (Wrappers.pfN bodies j = k ∧ j ≠ k) := by
  unfold Wrappers.childFilter Wrappers.pfN
  simp only [Bool.and_eq_true, beq_iff_eq, bne_iff_ne, ne_eq]
  constructor
  · rintro ⟨⟨hpk, hidne⟩, _⟩
    rw [hpk, Int.toNat_natCast]
    refine ⟨rfl, ?_⟩
    intro hjk
    apply hidne
    rw [hid j hj, hpk, hjk]
  · rintro ⟨hpfk, hjk⟩
    have hj1 : 1 ≤ j := by
      rcases Nat.eq_zero_or_pos j with rfl | h
      · exfalso
        rw [h0 (by omega)] at hpfk
        simp only [Int.toNat_zero] at hpfk
        omega
      · exact h
    have hnn := (hpar j hj hj1).1
    have hpk : (bodies.getD j default).parent_id = (k : Int) := by
      have hcast := Int.toNat_of_nonneg hnn
      rw [hpfk] at hcast
      omega
    have hk0 : (0 : Int) < (k : Int) := by exact_mod_cast hk1
    refine ⟨⟨hpk, ?_⟩, ?_⟩
    · rw [hid j hj, hpk]
      intro hcast
      exact hjk (by exact_mod_cast hcast)
    · rw [hpk]
      omega

/-- Decomposition of strict descendants: j is a strict descendant of k
iff j descends (weakly) from some child of k. -/
theorem Wrappers.desc_decomp {bodies : List Wrappers.Body}
    (hpar : ∀ j, j < bodies.length → 1 ≤ j →
      0 ≤ (bodies.getD j default).parent_id ∧
        (bodies.getD j default).parent_id < (j : Int))
    (h0 : 0 < bodies.length → (bodies.getD 0 default).parent_id = 0)
    {k : Nat} (hk1 : 1 ≤ k) :
    ∀ j, j < bodies.length →
      ((j ≠ k ∧ Wrappers.Reach bodies j k) ↔
        ∃ c, (c < bodies.length ∧ Wrappers.pfN bodies c = k ∧ c ≠ k) ∧
          Wrappers.Reach bodies j c) := by
  intro j
  induction j using Nat.strong_induction_on with
  | _ j ih =>
    intro hj
    constructor
    · rintro ⟨hjk, hr⟩
      cases hr with
      | refl => exact absurd rfl hjk
      | step _ _ hj0 hr' =>
          by_cases hc : Wrappers.pfN bodies j = k
          · exact ⟨j, ⟨hj, hc, hjk⟩, Wrappers.Reach.refl j⟩
          · have hpfj_lt : Wrappers.pfN bodies j < j :=
              Wrappers.pfN_lt hpar hj0 hj
            have hpn : Wrappers.pfN bodies j < bodies.length :=
              lt_trans hpfj_lt hj
            rcases (ih _ hpfj_lt hpn).mp ⟨hc, hr'⟩ with ⟨c, hcprop, hrc⟩
            exact ⟨c, hcprop, Wrappers.Reach.step j c hj0 hrc⟩
    · rintro ⟨c, ⟨hcn, hpc, hck⟩, hrc⟩
      have hc0 : 0 < c := by
        rcases Nat.eq_zero_or_pos c with rfl | h
        · exfalso
          have hz : Wrappers.pfN bodies 0 = 0 := by
            unfold Wrappers.pfN
            rw [h0 (by omega)]
            rfl
          omega
        · exact h
      have hck' : Wrappers.Reach bodies c k := by
        have hstep : Wrappers.Reach bodies c (Wrappers.pfN bodies c) :=
          Wrappers.Reach.step c _ hc0 (Wrappers.Reach.refl _)
        rw [hpc] at hstep
        exact hstep
      refine ⟨?_, Wrappers.reach_trans hrc hck'⟩
      intro hjk
      subst hjk
      have h1 : c ≤ j := Wrappers.reach_le hpar h0 hrc
      have h2 : Wrappers.pfN bodies c < c := Wrappers.pfN_lt hpar hc0 hcn
      omega

/-- Two children of the same positive index reachable from the same start
coincide. -/
theorem Wrappers.child_unique {bodies : List Wrappers.Body}
    (hpar : ∀ j, j < bodies.length → 1 ≤ j →
      0 ≤ (bodies.getD j default).parent_id ∧
        (bodies.getD j default).parent_id < (j : Int))
    (h0 : 0 < bodies.length → (bodies.getD 0 default).parent_id = 0)
    {k : Nat} (hk1 : 1 ≤ k) :
    ∀ j c c', c < bodies.length → Wrappers.pfN bodies c = k → c ≠ k →
      c' < bodies.length → Wrappers.pfN bodies c' = k → c' ≠ k →
      Wrappers.Reach bodies j c → Wrappers.Reach bodies j c' → c = c' := by
  intro j c c' hcn hpc hck hc'n hpc' hc'k h1 h2
  rcases Wrappers.reach_linear hpar h0 j c c' h1 h2 with h | h
  · cases h with
    | refl => rfl
    | step _ _ hc0 hr =>
        rw [hpc] at hr
        have hle1 := Wrappers.reach_le hpar h0 hr
        have hle2 := Wrappers.pfN_le hpar h0 c'
        omega
  · cases h with
    | refl => rfl
    | step _ _ hc0 hr =>
        rw [hpc'] at hr
        have hle1 := Wrappers.reach_le hpar h0 hr
        have hle2 := Wrappers.pfN_le hpar h0 c
        omega

/-- The per-child subtree count: weak descendants of a child c of a
positive index are c itself plus its strict descendants. -/
theorem Wrappers.reach_count_child {bodies : List Wrappers.Body}
    (hpar : ∀ j, j < bodies.length → 1 ≤ j →
      0 ≤ (bodies.getD j default).parent_id ∧
        (bodies.getD j default).parent_id < (j : Int))
    (h0 : 0 < bodies.length → (bodies.getD 0 default).parent_id = 0)
    {c : Nat} (hc : c < bodies.length) :
    (List.range bodies.length).countP
        (fun j => Wrappers.reachb bodies bodies.length j c) =
      1 + Wrappers.descCount bodies c := by
  have hcongr : (List.range bodies.length).countP
      (fun j => Wrappers.reachb bodies bodies.length j c) =
      (List.range bodies.length).countP
        (fun j => (j == c) ||
          (decide (j ≠ c) && Wrappers.reachb bodies bodies.length j c)) := by
    apply List.countP_congr
    intro j hjr
    rw [List.mem_range] at hjr
    constructor
    · intro hr
      by_cases hjc : j = c
      · subst hjc
        simp
      · simp only [Bool.or_eq_true_iff, Bool.and_eq_true_iff,
          decide_eq_true_eq, beq_iff_eq]
        exact Or.inr ⟨hjc, hr⟩
    · intro hb
      rcases Bool.or_eq_true_iff.mp hb with h1 | h2
      · have hjc : j = c := beq_iff_eq.mp h1
        subst hjc
        exact Wrappers.reachb_of_reach hpar h0 (Wrappers.Reach.refl j)
          bodies.length (by omega)
      · exact (Bool.and_eq_true_iff.mp h2).2
  rw [hcongr]
  rw [List.countP_or_disjoint]
  · rw [List.countP_beq_range hc]
    unfold Wrappers.descCount
    rw [List.countP_eq_length_filter]
  · intro a _ ⟨h1, h2⟩
    rcases Bool.and_eq_true_iff.mp h2 with ⟨h3, _⟩
    exact (of_decide_eq_true h3) (beq_iff_eq.mp h1)

/-- The subtree below a positive index k in the collected forest has
exactly as many nodes as k has strict descendants in the parent relation,
for any fuel at least the number of remaining indices. -/
theorem Wrappers.collect_children_size {bodies : List Wrappers.Body}
    (hid : ∀ j, j < bodies.length → (bodies.getD j default).id = (j : Int))
    (hpar : ∀ j, j < bodies.length → 1 ≤ j →
      0 ≤ (bodies.getD j default).parent_id ∧
        (bodies.getD j default).parent_id < (j : Int))
    (h0 : 0 < bodies.length → (bodies.getD 0 default).parent_id = 0) :
    ∀ m k f, bodies.length - k = m → 1 ≤ k → k < bodies.length →
      bodies.length - k ≤ f →
      Wrappers.forestSize (Wrappers.collect_children f (k : Int) bodies) =
        Wrappers.descCount bodies k := by
  intro m
  induction m using Nat.strong_induction_on with
  | _ m ih =>
    intro k f hm hk1 hkn hf
    obtain ⟨f', rfl⟩ : ∃ f', f = f' + 1 := ⟨f - 1, by omega⟩
    rw [Wrappers.collect_children, Wrappers.forestSize_ofList, List.map_map]
    have hfun : (Wrappers.treeSize ∘ fun c =>
        Wrappers.BTree.node c (Wrappers.collect_children f' c.id bodies)) =
        fun c => 1 + Wrappers.forestSize
          (Wrappers.collect_children f' c.id bodies) := by
      funext c
      rfl
    rw [hfun, List.sum_filter_map_by_index]
    have hfil : (List.range bodies.length).filter
        (fun j => Wrappers.childFilter (k : Int) (bodies.getD j default)) =
        (List.range bodies.length).filter
          (fun j => decide (Wrappers.pfN bodies j = k) && decide (j ≠ k)) := by
      apply List.filter_congr
      intro j hjr
      rw [List.mem_range] at hjr
      apply boolEq_of_iff
      rw [Wrappers.childFilter_getD_iff hid hpar h0 hk1 hjr]
      simp
    rw [hfil]
    have hchild : ∀ j, j ∈ (List.range bodies.length).filter
        (fun j => decide (Wrappers.pfN bodies j = k) && decide (j ≠ k)) →
        j < bodies.length ∧ Wrappers.pfN bodies j = k ∧ j ≠ k ∧ k < j := by
      intro j hjm
      rcases List.mem_filter.mp hjm with ⟨hjr, hjp⟩
      rw [List.mem_range] at hjr
      rcases Bool.and_eq_true_iff.mp hjp with ⟨hp1, hp2⟩
      have hpf := of_decide_eq_true hp1
      have hne := of_decide_eq_true hp2
      have hj1 : 1 ≤ j := by
        rcases Nat.eq_zero_or_pos j with rfl | h
        · exfalso
          have hz : Wrappers.pfN bodies 0 = 0 := by
            unfold Wrappers.pfN
            rw [h0 (by omega)]
            rfl
          omega
        · exact h
      have hlt := Wrappers.pfN_lt hpar hj1 hjr
      exact ⟨hjr, hpf, hne, by omega⟩
    have hmap : ((List.range bodies.length).filter
        (fun j => decide (Wrappers.pfN bodies j = k) && decide (j ≠ k))).map
        (fun j => 1 + Wrappers.forestSize
          (Wrappers.collect_children f' (bodies.getD j default).id bodies)) =
        ((List.range bodies.length).filter
          (fun j => decide (Wrappers.pfN bodies j = k) && decide (j ≠ k))).map
          (fun j => 1 + Wrappers.descCount bodies j) := by
      apply List.map_congr_left
      intro j hjm
      rcases hchild j hjm with ⟨hjr, hpf, hne, hkj⟩
      rw [hid j hjr]
      rw [ih (bodies.length - j) (by omega) j f' rfl (by omega) hjr (by omega)]
    rw [hmap]
    unfold Wrappers.descCount
    rw [← List.countP_eq_length_filter]
    have hany : (List.range bodies.length).countP
        (fun j => decide (j ≠ k) && Wrappers.reachb bodies bodies.length j k) =
        (List.range bodies.length).countP
          (fun j => ((List.range bodies.length).filter
            (fun j => decide (Wrappers.pfN bodies j = k) && decide (j ≠ k))).any
            (fun c => Wrappers.reachb bodies bodies.length j c)) := by
      apply List.countP_congr
      intro j hjr
      rw [List.mem_range] at hjr
      constructor
      · intro hb
        rcases Bool.and_eq_true_iff.mp hb with ⟨h1, h2⟩
        have hjk := of_decide_eq_true h1
        have hr := Wrappers.reach_of_reachb bodies.length j k h2
        rcases (Wrappers.desc_decomp hpar h0 hk1 j hjr).mp ⟨hjk, hr⟩ with
          ⟨c, ⟨hcn, hpc, hck⟩, hrc⟩
        apply List.any_eq_true.mpr
        refine ⟨c, ?_, ?_⟩
        · rw [List.mem_filter, List.mem_range]
          exact ⟨hcn, by simp [hpc, hck]⟩
        · exact Wrappers.reachb_of_reach hpar h0 hrc bodies.length (by omega)
      · intro hb
        rcases List.any_eq_true.mp hb with ⟨c, hcm, hrb⟩
        rcases List.mem_filter.mp hcm with ⟨hcr, hcp⟩
        rw [List.mem_range] at hcr
        rcases Bool.and_eq_true_iff.mp hcp with ⟨hp1, hp2⟩
        have hpc := of_decide_eq_true hp1
        have hck := of_decide_eq_true hp2
        have hrc := Wrappers.reach_of_reachb bodies.length j c hrb
        rcases (Wrappers.desc_decomp hpar h0 hk1 j hjr).mpr
          ⟨c, ⟨hcr, hpc, hck⟩, hrc⟩ with ⟨hjk, hr⟩
        simp only [Bool.and_eq_true_iff, decide_eq_true_eq]
        exact ⟨hjk, Wrappers.reachb_of_reach hpar h0 hr bodies.length (by omega)⟩
    rw [hany]
    rw [List.countP_any_disjoint _ _ _
      (List.Nodup.filter _ (List.nodup_range bodies.length))
      (by
        intro j _ c hcm c' hc'm hb hb'
        rcases List.mem_filter.mp hcm with ⟨hcr, hcp⟩
        rw [List.mem_range] at hcr
        rcases Bool.and_eq_true_iff.mp hcp with ⟨hp1, hp2⟩
        rcases List.mem_filter.mp hc'm with ⟨hc'r, hc'p⟩
        rw [List.mem_range] at hc'r
        rcases Bool.and_eq_true_iff.mp hc'p with ⟨hp1', hp2'⟩
        exact Wrappers.child_unique hpar h0 hk1 j c c' hcr
          (of_decide_eq_true hp1) (of_decide_eq_true hp2) hc'r
          (of_decide_eq_true hp1') (of_decide_eq_true hp2')
          (Wrappers.reach_of_reachb bodies.length j c hb)
          (Wrappers.reach_of_reachb bodies.length j c' hb'))]
    apply congrArg List.sum
    apply List.map_congr_left
    intro c hcm
    rcases List.mem_filter.mp hcm with ⟨hcr, _⟩
    rw [List.mem_range] at hcr
    have hcc := Wrappers.reach_count_child hpar h0 hcr
    unfold Wrappers.descCount at hcc
    omega

/-- countP transported to the index level. -/
theorem List.countP_by_index {α : Type} [Inhabited α] (l : List α) (p : α → Bool) :
    l.countP p =
      (List.range l.length).countP (fun j => p (l.getD j default)) := by
  rw [List.countP_eq_length_filter, List.countP_eq_length_filter]
  exact List.length_filter_by_index l p

/-- The root test at the index level: parent_id == 0 iff pfN vanishes. -/
theorem Wrappers.isRoot_iff {bodies : List Wrappers.Body}
    (hpar : ∀ j, j < bodies.length → 1 ≤ j →
      0 ≤ (bodies.getD j default).parent_id ∧
        (bodies.getD j default).parent_id < (j : Int))
    (h0 : 0 < bodies.length → (bodies.getD 0 default).parent_id = 0)
    {j : Nat} (hj : j < bodies.length) :
    (((bodies.getD j default).parent_id == 0) = true) ↔
      Wrappers.pfN bodies j = 0 := by
  unfold Wrappers.pfN
  rw [beq_iff_eq]
  constructor
  · intro h
    rw [h]
    rfl
  · intro h
    rcases Nat.eq_zero_or_pos j with rfl | hj1
    · exact h0 (by omega)
    · have hnn := (hpar j hj hj1).1
      have := Int.toNat_of_nonneg hnn
      omega

/-- Every non-root index below the length reaches a unique positive root. -/
theorem Wrappers.root_exists {bodies : List Wrappers.Body}
    (hpar : ∀ j, j < bodies.length → 1 ≤ j →
      0 ≤ (bodies.getD j default).parent_id ∧
        (bodies.getD j default).parent_id < (j : Int))
    (h0 : 0 < bodies.length → (bodies.getD 0 default).parent_id = 0) :
    ∀ j, j < bodies.length → Wrappers.pfN bodies j ≠ 0 →
      ∃ r, r < bodies.length ∧ 1 ≤ r ∧ Wrappers.pfN bodies r = 0 ∧
        j ≠ r ∧ Wrappers.Reach bodies j r := by
  intro j
  induction j using Nat.strong_induction_on with
  | _ j ih =>
    intro hj hnr
    have hz : Wrappers.pfN bodies 0 = 0 := by
      unfold Wrappers.pfN
      rw [h0 (by omega)]
      rfl
    have hj1 : 1 ≤ j := by
      rcases Nat.eq_zero_or_pos j with rfl | h
      · exact absurd hz hnr
      · exact h
    have hplt : Wrappers.pfN bodies j < j := Wrappers.pfN_lt hpar hj1 hj
    have hpn : Wrappers.pfN bodies j < bodies.length := lt_trans hplt hj
    by_cases hp : Wrappers.pfN bodies (Wrappers.pfN bodies j) = 0
    · refine ⟨Wrappers.pfN bodies j, hpn, ?_, hp, by omega, ?_⟩
      · rcases Nat.eq_zero_or_pos (Wrappers.pfN bodies j) with hq | h
        · exact absurd hq hnr
        · exact h
      · exact Wrappers.Reach.step j _ hj1 (Wrappers.Reach.refl _)
    · rcases ih _ hplt hpn hp with ⟨r, hr1, hr2, hr3, hr4, hr5⟩
      refine ⟨r, hr1, hr2, hr3, ?_, Wrappers.Reach.step j r hj1 hr5⟩
      have := Wrappers.reach_le hpar h0 hr5
      omega

/-- Two positive roots reachable from the same index coincide. -/
theorem Wrappers.root_unique {bodies : List Wrappers.Body}
    (hpar : ∀ j, j < bodies.length → 1 ≤ j →
      0 ≤ (bodies.getD j default).parent_id ∧
        (bodies.getD j default).parent_id < (j : Int))
    (h0 : 0 < bodies.length → (bodies.getD 0 default).parent_id = 0) :
    ∀ j r r', 1 ≤ r → Wrappers.pfN bodies r = 0 →
      1 ≤ r' → Wrappers.pfN bodies r' = 0 →
      Wrappers.Reach bodies j r → Wrappers.Reach bodies j r' → r = r' := by
  intro j r r' hr1 hr0 hr1' hr0' h1 h2
  rcases Wrappers.reach_linear hpar h0 j r r' h1 h2 with h | h
  · cases h with
    | refl => rfl
    | step _ _ hc0 hr =>
        rw [hr0] at hr
        have := Wrappers.reach_zero hr
        omega
  · cases h with
    | refl => rfl
    | step _ _ hc0 hr =>
        rw [hr0'] at hr
        have := Wrappers.reach_zero hr
        omega

/-- The non-root indices are exactly the strict descendants of the
positive roots, counted once each. -/
theorem Wrappers.nonroot_count {bodies : List Wrappers.Body}
    (hpar : ∀ j, j < bodies.length → 1 ≤ j →
      0 ≤ (bodies.getD j default).parent_id ∧
        (bodies.getD j default).parent_id < (j : Int))
    (h0 : 0 < bodies.length → (bodies.getD 0 default).parent_id = 0) :
    (List.range bodies.length).countP
        (fun j => !((bodies.getD j default).parent_id == 0)) =
      ((((List.range bodies.length).filter
          (fun j => (bodies.getD j default).parent_id == 0)).filter
          (fun r => decide (1 ≤ r))).map
        (fun r => Wrappers.descCount bodies r)).sum := by
  have hany : (List.range bodies.length).countP
      (fun j => !((bodies.getD j default).parent_id == 0)) =
      (List.range bodies.length).countP
        (fun j => (((List.range bodies.length).filter
            (fun j => (bodies.getD j default).parent_id == 0)).filter
            (fun r => decide (1 ≤ r))).any
          (fun r => decide (j ≠ r) && Wrappers.reachb bodies bodies.length j r)) := by
    apply List.countP_congr
    intro j hjr
    rw [List.mem_range] at hjr
    constructor
    · intro hb
      have hnr : Wrappers.pfN bodies j ≠ 0 := by
        intro hz
        rw [Bool.not_eq_true'] at hb
        have htrue := (Wrappers.isRoot_iff hpar h0 hjr).mpr hz
        rw [htrue] at hb
        exact Bool.noConfusion hb
      rcases Wrappers.root_exists hpar h0 j hjr hnr with ⟨r, hr1, hr2, hr3, hr4, hr5⟩
      apply List.any_eq_true.mpr
      refine ⟨r, ?_, ?_⟩
      · rw [List.mem_filter, List.mem_filter, List.mem_range]
        exact ⟨⟨hr1, (Wrappers.isRoot_iff hpar h0 hr1).mpr hr3⟩, by simp [hr2]⟩
      · simp only [Bool.and_eq_true_iff, decide_eq_true_eq]
        exact ⟨hr4, Wrappers.reachb_of_reach hpar h0 hr5 bodies.length (by omega)⟩
    · intro hb
      rcases List.any_eq_true.mp hb with ⟨r, hrm, hrb⟩
      rcases List.mem_filter.mp hrm with ⟨hrm', hr1⟩
      rcases List.mem_filter.mp hrm' with ⟨hrr, hriso⟩
      rw [List.mem_range] at hrr
      rcases Bool.and_eq_true_iff.mp hrb with ⟨hne, hrb'⟩
      have hr0 : Wrappers.pfN bodies r = 0 :=
        (Wrappers.isRoot_iff hpar h0 hrr).mp hriso
      have hreach := Wrappers.reach_of_reachb bodies.length j r hrb'
      rw [Bool.not_eq_true']
      rw [← Bool.not_eq_true]
      intro hroot
      have hjz : Wrappers.pfN bodies j = 0 :=
        (Wrappers.isRoot_iff hpar h0 hjr).mp hroot
      cases hreach with
      | refl => exact (of_decide_eq_true hne) rfl
      | step _ _ hj0 hr' =>
          rw [hjz] at hr'
          have := Wrappers.reach_zero hr'
          have := of_decide_eq_true hr1
          omega
  rw [hany]
  rw [List.countP_any_disjoint _ _ _
    (List.Nodup.filter _ (List.Nodup.filter _ (List.nodup_range bodies.length)))
    (by
      intro j _ r hrm r' hr'm hb hb'
      rcases List.mem_filter.mp hrm with ⟨hrm1, hr1⟩
      rcases List.mem_filter.mp hrm1 with ⟨hrr, hriso⟩
      rw [List.mem_range] at hrr
      rcases List.mem_filter.mp hr'm with ⟨hr'm1, hr'1⟩
      rcases List.mem_filter.mp hr'm1 with ⟨hr'r, hr'iso⟩
      rw [List.mem_range] at hr'r
      rcases Bool.and_eq_true_iff.mp hb with ⟨_, hrb⟩
      rcases Bool.and_eq_true_iff.mp hb' with ⟨_, hrb'⟩
      exact Wrappers.root_unique hpar h0 j r r'
        (of_decide_eq_true hr1)
        ((Wrappers.isRoot_iff hpar h0 hrr).mp hriso)
        (of_decide_eq_true hr'1)
        ((Wrappers.isRoot_iff hpar h0 hr'r).mp hr'iso)
        (Wrappers.reach_of_reachb bodies.length j r hrb)
        (Wrappers.reach_of_reachb bodies.length j r' hrb'))]
  apply congrArg List.sum
  apply List.map_congr_left
  intro r _
  unfold Wrappers.descCount
  rw [List.countP_eq_length_filter]

/-- The total node count of the built forest decomposes into the number
of roots plus the strict-descendant counts of the positive roots. -/
theorem Wrappers.totalNodes_eq {bodies : List Wrappers.Body}
    (hid : ∀ j, j < bodies.length → (bodies.getD j default).id = (j : Int))
    (hpar : ∀ j, j < bodies.length → 1 ≤ j →
      0 ≤ (bodies.getD j default).parent_id ∧
        (bodies.getD j default).parent_id < (j : Int))
    (h0 : 0 < bodies.length → (bodies.getD 0 default).parent_id = 0) :
    Wrappers.totalNodes (Wrappers.body_tree bodies) =
      ((List.range bodies.length).filter
        (fun j => (bodies.getD j default).parent_id == 0)).length +
      ((((List.range bodies.length).filter
          (fun j => (bodies.getD j default).parent_id == 0)).filter
          (fun r => decide (1 ≤ r))).map
        (fun r => Wrappers.descCount bodies r)).sum := by
  unfold Wrappers.totalNodes Wrappers.body_tree
  rw [List.map_map]
  have hfun : (Wrappers.treeSize ∘ fun b =>
      Wrappers.BTree.node b (Wrappers.collect_children bodies.length b.id bodies)) =
      fun b => 1 + Wrappers.forestSize
        (Wrappers.collect_children bodies.length b.id bodies) := by
    funext b
    rfl
  rw [hfun, List.sum_filter_map_by_index]
  have hperm := List.filter_append_perm (fun r => decide (1 ≤ r))
    ((List.range bodies.length).filter
      (fun j => (bodies.getD j default).parent_id == 0))
  have hsum := (hperm.map (fun j => 1 + Wrappers.forestSize
    (Wrappers.collect_children bodies.length (bodies.getD j default).id bodies))).sum_eq
  rw [← hsum, List.map_append, List.sum_append]
  have hposmem : ∀ r ∈ (((List.range bodies.length).filter
      (fun j => (bodies.getD j default).parent_id == 0)).filter
      (fun r => decide (1 ≤ r))), r < bodies.length ∧ 1 ≤ r := by
    intro r hr
    rcases List.mem_filter.mp hr with ⟨hr1, hr2⟩
    rcases List.mem_filter.mp hr1 with ⟨hrr, _⟩
    rw [List.mem_range] at hrr
    exact ⟨hrr, of_decide_eq_true hr2⟩
  have hpos : (((List.range bodies.length).filter
      (fun j => (bodies.getD j default).parent_id == 0)).filter
      (fun r => decide (1 ≤ r))).map
      (fun j => 1 + Wrappers.forestSize
        (Wrappers.collect_children bodies.length (bodies.getD j default).id bodies)) =
      (((List.range bodies.length).filter
        (fun j => (bodies.getD j default).parent_id == 0)).filter
        (fun r => decide (1 ≤ r))).map
        (fun r => 1 + Wrappers.descCount bodies r) := by
    apply List.map_congr_left
    intro r hr
    rcases hposmem r hr with ⟨hrn, hr1⟩
    rw [hid r hrn]
    rw [Wrappers.collect_children_size hid hpar h0 (bodies.length - r) r
      bodies.length rfl hr1 hrn (by omega)]
  rw [hpos]
  have hzeros : (((List.range bodies.length).filter
      (fun j => (bodies.getD j default).parent_id == 0)).filter
      (fun r => !decide (1 ≤ r))).map
      (fun j => 1 + Wrappers.forestSize
        (Wrappers.collect_children bodies.length (bodies.getD j default).id bodies)) =
      (((List.range bodies.length).filter
        (fun j => (bodies.getD j default).parent_id == 0)).filter
        (fun r => !decide (1 ≤ r))).map (fun _ => 1) := by
    apply List.map_congr_left
    intro j hj
    rcases List.mem_filter.mp hj with ⟨hj1, hj2⟩
    rcases List.mem_filter.mp hj1 with ⟨hjr, _⟩
    rw [List.mem_range] at hjr
    have hj0 : j = 0 := by
      rw [Bool.not_eq_true'] at hj2
      have := of_decide_eq_false hj2
      omega
    subst hj0
    rw [hid 0 hjr]
    have hcast : ((0 : Nat) : Int) = 0 := rfl
    rw [hcast, Wrappers.collect_children_zero bodies bodies.length]
  rw [hzeros, List.sum_map_one_add, List.sum_map_one]
  have hlen := hperm.length_eq
  rw [List.length_append] at hlen
  have heta : (List.map (fun r => Wrappers.descCount bodies r)
      (((List.range bodies.length).filter
        (fun j => (bodies.getD j default).parent_id == 0)).filter
        (fun r => decide (1 ≤ r)))).sum =
      (List.map (Wrappers.descCount bodies)
        (((List.range bodies.length).filter
          (fun j => (bodies.getD j default).parent_id == 0)).filter
          (fun r => decide (1 ≤ r)))).sum := rfl
  rw [heta]
  omega

/-- C1 amended: for every list of bodies the number of returned roots
equals the number of bodies whose parent_id is the world sentinel 0; and
for every well-formed table (ids are the positions, the index-0 world
entry is self-parented, every later body's parent_id is a smaller
nonnegative index) the forest's total node count equals the number of
non-self-parented bodies plus the number of self-parented world entries. -/
theorem C1_amended (bodies : List Wrappers.Body) :
    (Wrappers.body_tree bodies).length =
      bodies.countP (fun b => b.parent_id == 0) ∧
    ((∀ j, j < bodies.length → (bodies.getD j default).id = (j : Int)) →
      (∀ j, j < bodies.length → 1 ≤ j →
        0 ≤ (bodies.getD j default).parent_id ∧
          (bodies.getD j default).parent_id < (j : Int)) →
      (0 < bodies.length → (bodies.getD 0 default).parent_id = 0) →
      Wrappers.totalNodes (Wrappers.body_tree bodies) =
        bodies.countP (fun b => b.id != b.parent_id) +
          bodies.countP (fun b => b.id == b.parent_id && b.parent_id == 0)) := by
  constructor
  · unfold Wrappers.body_tree
    rw [List.length_map, List.countP_eq_length_filter]
  · intro hid hpar h0
    rcases Nat.eq_zero_or_pos bodies.length with hn | hn
    · have hnil : bodies = [] := List.length_eq_zero.mp hn
      subst hnil
      decide
    · rw [Wrappers.totalNodes_eq hid hpar h0]
      rw [← Wrappers.nonroot_count hpar h0]
      rw [List.countP_by_index bodies (fun b => b.id != b.parent_id)]
      rw [List.countP_by_index bodies
        (fun b => b.id == b.parent_id && b.parent_id == 0)]
      have hA : (List.range bodies.length).countP
          (fun j => (bodies.getD j default).id !=
            (bodies.getD j default).parent_id) =
          (List.range bodies.length).countP (fun j => decide (1 ≤ j)) := by
        apply List.countP_congr
        intro j hjr
        rw [List.mem_range] at hjr
        simp only [bne_iff_ne, ne_eq, decide_eq_true_eq]
        rcases Nat.eq_zero_or_pos j with rfl | hj1
        · rw [hid 0 hjr, h0 hn]
          simp
        · rw [hid j hjr]
          have hlt := (hpar j hjr hj1).2
          constructor
          · intro _
            exact hj1
          · intro _ heq
            omega
      have hB : (List.range bodies.length).countP
          (fun j => (bodies.getD j default).id ==
              (bodies.getD j default).parent_id &&
            (bodies.getD j default).parent_id == 0) =
          (List.range bodies.length).countP (fun j => j == 0) := by
        apply List.countP_congr
        intro j hjr
        rw [List.mem_range] at hjr
        simp only [Bool.and_eq_true_iff, beq_iff_eq]
        rcases Nat.eq_zero_or_pos j with rfl | hj1
        · rw [hid 0 hjr, h0 hn]
          simp
        · rw [hid j hjr]
          have hlt := (hpar j hjr hj1).2
          constructor
          · rintro ⟨heq, _⟩
            omega
          · intro h
            omega
      have hC : (List.range bodies.length).countP (fun j => j == 0) = 1 :=
        List.countP_beq_range hn
      have hD : (List.range bodies.length).countP (fun j => decide (1 ≤ j)) =
          bodies.length - 1 := by
        have hsplit := List.countP_or_disjoint (List.range bodies.length)
          (fun j => j == 0) (fun j => decide (1 ≤ j))
          (by
            intro a _ ⟨h1, h2⟩
            have := beq_iff_eq.mp h1
            have := of_decide_eq_true h2
            omega)
        have hall : (List.range bodies.length).countP
            (fun j => (j == 0) || decide (1 ≤ j)) = bodies.length := by
          have hcg : (List.range bodies.length).countP
              (fun j => (j == 0) || decide (1 ≤ j)) =
              (List.range bodies.length).countP (fun _ => true) := by
            apply List.countP_congr
            intro j _
            simp only [Bool.or_eq_true_iff, beq_iff_eq, decide_eq_true_eq,
              iff_true]
            omega
          rw [hcg, congrFun List.countP_true (List.range bodies.length),
            List.length_range]
        have hbeta : (fun a => (fun j => j == 0) a || (fun j => decide (1 ≤ j)) a) =
            (fun j : Nat => (j == 0) || decide (1 ≤ j)) := rfl
        rw [hbeta] at hsplit
        omega
      have hpart := List.countP_or_disjoint (List.range bodies.length)
        (fun j => (bodies.getD j default).parent_id == 0)
        (fun j => !((bodies.getD j default).parent_id == 0))
        (by
          intro a _ ⟨h1, h2⟩
          have h1' : ((bodies.getD a default).parent_id == 0) = true := h1
          have h2' : (!((bodies.getD a default).parent_id == 0)) = true := h2
          rw [h1'] at h2'
          exact Bool.noConfusion h2')
      have hbeta2 : (fun a =>
          (fun j => (bodies.getD j default).parent_id == 0) a ||
            (fun j => !((bodies.getD j default).parent_id == 0)) a) =
          (fun j => ((bodies.getD j default).parent_id == 0) ||
            !((bodies.getD j default).parent_id == 0)) := rfl
      rw [hbeta2] at hpart
      have hpartall : (List.range bodies.length).countP
          (fun j => ((bodies.getD j default).parent_id == 0) ||
            !((bodies.getD j default).parent_id == 0)) = bodies.length := by
        have hcg : (List.range bodies.length).countP
            (fun j => ((bodies.getD j default).parent_id == 0) ||
              !((bodies.getD j default).parent_id == 0)) =
            (List.range bodies.length).countP (fun _ => true) := by
          apply List.countP_congr
          intro j _
          simp
        rw [hcg, congrFun List.countP_true (List.range bodies.length),
          List.length_range]
      have hroot : ((List.range bodies.length).filter
          (fun j => (bodies.getD j default).parent_id == 0)).length =
          (List.range bodies.length).countP
            (fun j => (bodies.getD j default).parent_id == 0) :=
        (List.countP_eq_length_filter _ _).symm
      rw [hA, hB, hC, hD, hroot]
      omega

/-- C1 witness: the amended theorem evaluated on the reference 14-body
table — 2 roots match the 2 world-parented bodies, and the 14 forest
nodes match the 13 non-self-parented bodies plus the world entry. -/
theorem C1_witness :
    ((Wrappers.body_tree Wrappers.refBodies).length =
      Wrappers.refBodies.countP (fun b => b.parent_id == 0)) ∧
    (∀ j, j < Wrappers.refBodies.length →
      (Wrappers.refBodies.getD j default).id = (j : Int)) ∧
    (∀ j, j < Wrappers.refBodies.length → 1 ≤ j →
      0 ≤ (Wrappers.refBodies.getD j default).parent_id ∧
        (Wrappers.refBodies.getD j default).parent_id < (j : Int)) ∧
    (0 < Wrappers.refBodies.length →
      (Wrappers.refBodies.getD 0 default).parent_id = 0) ∧
    Wrappers.totalNodes (Wrappers.body_tree Wrappers.refBodies) =
      Wrappers.refBodies.countP (fun b => b.id != b.parent_id) +
        Wrappers.refBodies.countP
          (fun b => b.id == b.parent_id && b.parent_id == 0) :=
  ⟨(C1_amended Wrappers.refBodies).1, by decide, by decide, by decide,
   (C1_amended Wrappers.refBodies).2 (by decide) (by decide) (by decide)⟩
